import Mathlib

/-!
Conway's Game of Life (Go / OpenGL): the automaton core of `main.go`.

A shallow embedding of the grid model (`cell`, `liveNeighbours`), of the update
rule (`checkState` and the update loop of `main`), of the seeder (`makecells`), of
`draw` and of the flag loop of `main`, followed by the properties established about
them.

Modelling conventions.

* Go `int` values are `Int`.  The only arithmetic on them is `c.x ± 1`,
  `c.y ± 1`, `len - 1` and the centring offsets.  `c.x ± 1` and `c.y ± 1` could
  only overflow for a cell whose coordinate is an extreme 64-bit value, and then
  the wrapped value and the unbounded one both end in the out-of-range panic, so
  no reduction modulo `2^64` is applied.  The centring arithmetic on a pattern with
  non-negative components stays within the range of the `int` that holds the
  components (shown with the seeding loop below), so none is applied there either.
* `cells [][]*cell` is a list of rows of cells.  Every pointer stored in the grid
  is non-nil and distinct (each one is allocated by its own `newCell` call), so a
  `*cell` receiver is identified with its position in the grid and a write
  through the pointer is a write at that position.
* Indexing a slice out of range panics; a panic is `none`.
* The OpenGL handle returned by `makeVao`, the draws of `rand.Float32` and the
  package variable `threshold` are external to the core and are collected in
  `Env`.  `float32` values only take part in one comparison, `<`, between
  finite values; they are represented by rationals.
* `strconv.Atoi` and `strconv.ParseFloat` are external too and are the fields of
  `Strconv`; a `float64` they return is not-a-number, an infinity or a rational.
-/

namespace Life

/-! ## Data model -/

/-- The Go struct `cell`. -/
structure Cell where
  drawable : Nat
  alive : Bool
  aliveNext : Bool
  x : Int
  y : Int
deriving DecidableEq

/-- The Go type `[][]*cell`. -/
abbrev Grid := List (List Cell)

/-- Go slice indexing `xs[i]`: `none` stands for the out-of-range panic. -/
def index {α : Type} (xs : List α) (i : Int) : Option α :=
  if i < 0 then none else xs[i.toNat]?

/-- Read through the pointer stored at `cells[i][j]`. -/
def load (cells : Grid) (i j : Nat) : Option Cell :=
  match cells[i]? with
  | some r => r[j]?
  | none => none

/-- Write through the pointer stored at `cells[i][j]`. -/
def store (cells : Grid) (i j : Nat) (c : Cell) : Grid :=
  match cells[i]? with
  | some r => cells.set i (r.set j c)
  | none => cells

/-! ## `liveNeighbours` -/

/-- The variables the closure `add` of `liveNeighbours` can reach: the grid behind
`cells` and the captured counter `liveCount`. -/
structure Frame where
  cells : Grid
  liveCount : Int
deriving DecidableEq

/-- The closure `add` of `liveNeighbours` (main.go lines 64-79). -/
def add (s : Frame) (x y : Int) : Option Frame :=
  let x := if x = (s.cells.length : Int) then 0
           else if x = -1 then (s.cells.length : Int) - 1 else x
  match index s.cells x with
  | none => none
  | some r =>
    let y := if y = (r.length : Int) then 1
             else if y = -1 then (r.length : Int) - 1 else y
    match index r y with
    | none => none
    | some n => if n.alive then some { s with liveCount := s.liveCount + 1 } else some s

/-- The method `(c *cell) liveNeighbours(cells)` (main.go lines 62-92): the eight
calls of `add` in source order; returns the grid as the calls leave it and the
count. -/
def liveNeighbours (cells : Grid) (c : Cell) : Option (Grid × Int) := do
  let s : Frame := { cells := cells, liveCount := 0 }
  let s ← add s (c.x - 1) c.y
  let s ← add s (c.x + 1) c.y
  let s ← add s c.x (c.y + 1)
  let s ← add s c.x (c.y - 1)
  let s ← add s (c.x - 1) (c.y + 1)
  let s ← add s (c.x + 1) (c.y + 1)
  let s ← add s (c.x - 1) (c.y - 1)
  let s ← add s (c.x + 1) (c.y - 1)
  pure (s.cells, s.liveCount)

/-! ## `checkState` and the update loop -/

/-- The if-chain of `checkState` (main.go lines 41-59) on the receiver `c`. -/
def applyRule (c : Cell) (liveCount : Int) : Cell :=
  if c.alive then
    let c := if liveCount < 2 then { c with aliveNext := false } else c
    let c := if liveCount = 2 ∨ liveCount = 3 then { c with aliveNext := true } else c
    let c := if liveCount > 3 then { c with aliveNext := false } else c
    c
  else
    let c := if liveCount = 3 then { c with aliveNext := true } else c
    c

/-- The method `(c *cell) checkState(cells)` (main.go lines 36-60), the receiver
being the pointer stored at `cells[i][j]`. -/
def checkState (cells : Grid) (i j : Nat) : Option Grid := do
  let c ← load cells i j
  let c := { c with alive := c.aliveNext }
  let c := { c with aliveNext := c.alive }
  let cells := store cells i j c
  let (cells, liveCount) ← liveNeighbours cells c
  pure (store cells i j (applyRule c liveCount))

/-- The inner loop of the update pass, `for _, c := range cells[x]`. -/
def updateRow (x : Nat) (cells : Grid) : Option Grid :=
  (List.range (cells.getD x []).length).foldlM (fun g y => checkState g x y) cells

/-- The update pass of `main` (main.go lines 223-227), `for x := range cells`. -/
def updatePass (cells : Grid) : Option Grid :=
  (List.range cells.length).foldlM (fun g x => updateRow x g) cells

/-! ## `makecells` -/

/-- The constant `row`. -/
def row : Nat := 100

/-- The constant `columns`. -/
def columns : Nat := 100

/-- What `makecells` takes from outside the core: the handle `makeVao` returns for
the cell created at `(x, y)`, the value `rand.Float32()` returns in iteration
`(x, y)` of the random seeding loop, and the package variable `threshold`. -/
structure Env where
  makeVao : Nat → Nat → Nat
  randFloat32 : Nat → Nat → Rat
  threshold : Rat

/-- The package variable `patterns` (main.go lines 130-166); `none` for a name that
is not a key of the map. -/
def patterns : String → Option (List (List Int))
  | "random" => some []
  | "blinker" => some [[0, 1], [1, 1], [2, 1]]
  | "glider" => some [[1, 0], [2, 1], [0, 2], [1, 2], [2, 2]]
  | "lightweightspaceship" =>
    some [[0, 1], [0, 3], [1, 0], [2, 0], [3, 0], [3, 1], [3, 2], [2, 3]]
  | "pulsar" =>
    some [[2, 0], [3, 0], [4, 0], [8, 0], [9, 0], [10, 0],
          [0, 2], [5, 2], [7, 2], [12, 2],
          [0, 3], [5, 3], [7, 3], [12, 3],
          [0, 4], [5, 4], [7, 4], [12, 4],
          [2, 5], [3, 5], [4, 5], [8, 5], [9, 5], [10, 5],
          [2, 7], [3, 7], [4, 7], [8, 7], [9, 7], [10, 7],
          [0, 8], [5, 8], [7, 8], [12, 8],
          [0, 9], [5, 9], [7, 9], [12, 9],
          [0, 10], [5, 10], [7, 10], [12, 10],
          [2, 12], [3, 12], [4, 12], [8, 12], [9, 12], [10, 12]]
  | _ => none

/-- The function `newCell` (main.go lines 382-412); the vertex positions only feed
`makeVao`. -/
def newCell (env : Env) (x y : Nat) : Cell :=
  { drawable := env.makeVao x y, alive := false, aliveNext := false, x := x, y := y }

/-- The body of the creation loop of `makecells` (main.go lines 337-340). -/
def createCell (env : Env) (x : Nat) (cells : Grid) (y : Nat) : Option Grid := do
  let c := newCell env x y
  let c := { c with aliveNext := false }
  let c := { c with alive := false }
  let r ← cells[x]?
  pure (cells.set x (r ++ [c]))

/-- The creation loops of `makecells` (main.go lines 334-342). -/
def createCells (env : Env) : Option Grid :=
  (List.range row).foldlM
    (fun cells x => (List.range columns).foldlM (createCell env x) cells)
    (List.replicate row [])

/-- The bounding-box loop of `makecells` (main.go lines 348-356). -/
def maxCoords (patternCoords : List (List Int)) : Option (Int × Int) :=
  patternCoords.foldlM
    (fun (m : Int × Int) coord => do
      let c0 ← index coord 0
      let maxX := if c0 > m.1 then c0 else m.1
      let c1 ← index coord 1
      let maxY := if c1 > m.2 then c1 else m.2
      pure (maxX, maxY))
    (0, 0)

/-- Read through the pointer `cells[x][y]`, the indices being Go `int`s. -/
def loadAt (cells : Grid) (x y : Int) : Option Cell :=
  match index cells x with
  | some r => index r y
  | none => none

/-- The body of the seeding loop of `makecells` (main.go lines 362-366): the two
assignments go through the same pointer `cells[x+offsetX][y+offsetY]`. -/
def seedCoord (offsetX offsetY : Int) (cells : Grid) (coord : List Int) : Option Grid := do
  let x ← index coord 0
  let y ← index coord 1
  if x + offsetX < (row : Int) ∧ y + offsetY < (columns : Int) then
    let c ← loadAt cells (x + offsetX) (y + offsetY)
    let c := { c with aliveNext := true }
    let c := { c with alive := true }
    pure (store cells (x + offsetX).toNat (y + offsetY).toNat c)
  else
    pure cells

/-- The pattern branch of `makecells` (main.go lines 346-367); Go's `/` on `int`
truncates towards zero. -/
def seedPattern (cells : Grid) (patternCoords : List (List Int)) : Option Grid := do
  let (maxX, maxY) ← maxCoords patternCoords
  let offsetX := Int.tdiv ((row : Int) - maxX) 2
  let offsetY := Int.tdiv ((columns : Int) - maxY) 2
  patternCoords.foldlM (seedCoord offsetX offsetY) cells

/-- The body of the random seeding loop of `makecells` (main.go lines 372-374). -/
def seedRandomCell (env : Env) (x : Nat) (cells : Grid) (y : Nat) : Option Grid := do
  let c ← load cells x y
  let c := { c with aliveNext := decide (env.randFloat32 x y < env.threshold) }
  let c := { c with alive := c.aliveNext }
  pure (store cells x y c)

/-- The random branch of `makecells` (main.go lines 370-376). -/
def seedRandom (env : Env) (cells : Grid) : Option Grid :=
  (List.range row).foldlM
    (fun cells x => (List.range columns).foldlM (seedRandomCell env x) cells)
    cells

/-- The function `makecells` (main.go lines 331-380). -/
def makecells (env : Env) (patternName : String) : Option Grid := do
  let cells ← createCells env
  match patterns patternName, decide (patternName ≠ "random") with
  | some patternCoords, true => seedPattern cells patternCoords
  | _, _ => seedRandom env cells

/-! ## Functional description of rectangular grids -/

/-- The `R × C` grid whose cell at `(i, j)` is `f i j`. -/
def tab (f : Nat → Nat → Cell) (R C : Nat) : Grid :=
  (List.range R).map fun i => (List.range C).map (f i)

/-- The cell function `f` with the cell at `(i, j)` replaced by `c`. -/
def upd (f : Nat → Nat → Cell) (i j : Nat) (c : Cell) : Nat → Nat → Cell :=
  fun p q => if p = i ∧ q = j then c else f p q

/-- The row that `add` reads for a first index `x`, on a grid of `R` rows. -/
def wrapX (R : Nat) (x : Int) : Nat :=
  (if x = (R : Int) then 0 else if x = -1 then (R : Int) - 1 else x).toNat

/-- The column that `add` reads for a second index `y`, in a row of `C` cells. -/
def wrapY (C : Nat) (y : Int) : Nat :=
  (if y = (C : Int) then 1 else if y = -1 then (C : Int) - 1 else y).toNat

/-- The contribution of one call `add(p, q)` to `liveCount`, when the cell at
`(i, j)` has `alive = a i j`. -/
def bump (a : Nat → Nat → Bool) (R C : Nat) (p q : Int) : Int :=
  if a (wrapX R p) (wrapY C q) then 1 else 0

/-- The value `liveNeighbours` computes for the cell at `(x, y)` of an `R × C` grid
whose cell at `(i, j)` has `alive = a i j`: the eight calls of `add` in source
order. -/
def nbCount (a : Nat → Nat → Bool) (R C : Nat) (x y : Int) : Int :=
  0 + bump a R C (x - 1) y + bump a R C (x + 1) y + bump a R C x (y + 1)
    + bump a R C x (y - 1) + bump a R C (x - 1) (y + 1) + bump a R C (x + 1) (y + 1)
    + bump a R C (x - 1) (y - 1) + bump a R C (x + 1) (y - 1)

/-- The `alive` values the cell at `(i, j)` sees during an update pass over the
grid `f`: cells visited before it (and itself) are already committed. -/
def seen (f : Nat → Nat → Cell) (i j : Nat) : Nat → Nat → Bool :=
  fun p q => if p < i ∨ (p = i ∧ q ≤ j) then (f p q).aliveNext else (f p q).alive

/-- The cell at `(i, j)` after an update pass over the `R × C` grid `f`. -/
def stepCell (f : Nat → Nat → Cell) (R C : Nat) (i j : Nat) : Cell :=
  applyRule { f i j with alive := (f i j).aliveNext } (nbCount (seen f i j) R C i j)

/-- The grid in the middle of an update pass: rows before `i` and the first `n`
cells of row `i` are done. -/
def midPass (f : Nat → Nat → Cell) (R C : Nat) (i n : Nat) : Nat → Nat → Cell :=
  fun p q => if p < i ∨ (p = i ∧ q < n) then stepCell f R C p q else f p q

/-! ## Functional description of the seeding loops -/

/-- The cell function that agrees with `g` on the rows before `i` and on the first
`n` cells of row `i`, and with `f` elsewhere: the state of a row-major loop that
turns `f` into `g` cell by cell. -/
def mid (f g : Nat → Nat → Cell) (i n : Nat) : Nat → Nat → Cell :=
  fun p q => if p < i ∨ (p = i ∧ q < n) then g p q else f p q

/-- The grid of the creation loops of `makecells` when the rows before `x` are
complete and row `x` holds `n` cells. -/
def building (env : Env) (x n : Nat) : Grid :=
  (List.range row).map fun p =>
    if p < x then (List.range columns).map (newCell env p)
    else if p = x then (List.range n).map (newCell env p)
    else []

/-- The cell the random branch of `makecells` leaves at `(x, y)`. -/
def randomCell (env : Env) (x y : Nat) : Cell :=
  { newCell env x y with
    alive := decide (env.randFloat32 x y < env.threshold)
    aliveNext := decide (env.randFloat32 x y < env.threshold) }

/-- Whether some coordinate of the list, moved by the offsets, lands on `(i, j)`. -/
def hit (patternCoords : List (List Int)) (offsetX offsetY : Int) (i j : Nat) : Bool :=
  patternCoords.any fun coord =>
    decide (index coord 0 = some ((i : Int) - offsetX) ∧
      index coord 1 = some ((j : Int) - offsetY))

/-- The cell `c` after the two assignments of the seeding loop. -/
def setAlive (c : Cell) : Cell :=
  { c with aliveNext := true, alive := true }

/-- The cell the pattern branch of `makecells` leaves at `(i, j)` of the grid `f`. -/
def seeded (f : Nat → Nat → Cell) (patternCoords : List (List Int)) (offsetX offsetY : Int) :
    Nat → Nat → Cell :=
  fun i j => if hit patternCoords offsetX offsetY i j then setAlive (f i j) else f i j

/-- Whether every coordinate of the list has two components and a centred position
with non-negative indices. -/
def coordsOk (patternCoords : List (List Int)) (offsetX offsetY : Int) : Bool :=
  patternCoords.all fun coord =>
    match index coord 0, index coord 1 with
    | some x, some y => decide (0 ≤ x + offsetX ∧ 0 ≤ y + offsetY)
    | _, _ => false

/-- The seeded blinker as a predicate on positions: the cells `(49, 50)`, `(50, 50)`
and `(51, 50)`. -/
def blinkerAlive (p q : Nat) : Bool := decide ((p = 49 ∨ p = 50 ∨ p = 51) ∧ q = 50)

/-- The grid position a coordinate of a pattern is moved to by the offsets. -/
def place (offsetX offsetY : Int) (coord : List Int) : Nat × Nat :=
  (((index coord 0).getD 0 + offsetX).toNat, ((index coord 1).getD 0 + offsetY).toNat)

/-- Whether every coordinate of the list is a pair and is moved inside the grid. -/
def fits (patternCoords : List (List Int)) (offsetX offsetY : Int) : Bool :=
  patternCoords.all fun coord =>
    decide (coord.length = 2) &&
      decide ((place offsetX offsetY coord).1 < row ∧ (place offsetX offsetY coord).2 < columns)

/-- Whether every coordinate of the list is a pair within the box `maxX × maxY`. -/
def boxed (patternCoords : List (List Int)) (maxX maxY : Int) : Bool :=
  patternCoords.all fun coord =>
    match coord with
    | [x, y] => decide (x ≤ maxX ∧ y ≤ maxY)
    | _ => false

/-! ## Reference notions used to state the claims -/

/-- The grid in which every cell's `alive` holds the generation that the next
update pass commits (its `aliveNext`): the single consistent snapshot a
synchronous generation step reads. -/
def snapshot (cells : Grid) : Grid :=
  cells.map fun r => r.map fun c => { c with alive := c.aliveNext }

/-- Whether the cell at `(x, y)` is alive; an index outside the grid counts as dead. -/
def aliveAt (cells : Grid) (x y : Int) : Bool :=
  match loadAt cells x y with
  | some c => c.alive
  | none => false

/-- The offsets `(dx, dy)` in `{-1, 0, 1}^2` other than `(0, 0)`. -/
def offsets : List (Int × Int) :=
  [(-1, -1), (-1, 0), (-1, 1), (0, -1), (0, 1), (1, -1), (1, 0), (1, 1)]

/-- The toroidal neighbour count of the cell `(x, y)` on a `ROWS × COLS` grid: the
number of offsets `(dx, dy)` for which the cell at
`((x + dx) mod ROWS, (y + dy) mod COLS)` is alive. -/
def toroidalCount (cells : Grid) (ROWS COLS : Nat) (x y : Int) : Nat :=
  (offsets.filter fun d =>
    aliveAt cells ((x + d.1) % (ROWS : Int)) ((y + d.2) % (COLS : Int))).length

/-- The number of cells of the grid with `alive = true`. -/
def liveCells (cells : Grid) : Nat :=
  (cells.flatten.filter fun c => c.alive).length

/-! ## Sample inputs -/

/-- A cell with handle `0`. -/
def sampleCell (a n : Bool) (x y : Int) : Cell :=
  { drawable := 0, alive := a, aliveNext := n, x := x, y := y }

/-- A `3 × 3` grid whose only live cell is `(1, 0)`. -/
def grid3 : Grid :=
  [[sampleCell false false 0 0, sampleCell false false 0 1, sampleCell false false 0 2],
   [sampleCell true true 1 0, sampleCell false false 1 1, sampleCell false false 1 2],
   [sampleCell false false 2 0, sampleCell false false 2 1, sampleCell false false 2 2]]

/-- The default configuration (`threshold = 0.15`) with every draw equal to `1/2`. -/
def sampleEnv : Env :=
  { makeVao := fun _ _ => 0, randFloat32 := fun _ _ => 1 / 2, threshold := 15 / 100 }

/-- A run of the random source that makes `(1, 0)` the only live cell. -/
def edgeEnv : Env :=
  { makeVao := fun _ _ => 0
    randFloat32 := fun x y => if x = 1 ∧ y = 0 then 0 else 1 / 2
    threshold := 1 / 4 }

/-- A run with `threshold = 0.0`. -/
def zeroEnv : Env :=
  { makeVao := fun _ _ => 0, randFloat32 := fun _ _ => 1 / 2, threshold := 0 }

/-- A run with `threshold = 1.0`. -/
def oneEnv : Env :=
  { makeVao := fun _ _ => 0, randFloat32 := fun _ _ => 1 / 2, threshold := 1 }


/-! ## `draw`, repeated passes and the flag loop of `main` -/

/-- The update pass of `main` repeated `k` times (`draw` does not write to the grid). -/
def updatePasses : Nat → Grid → Option Grid
  | 0, cells => some cells
  | k + 1, cells => (updatePass cells).bind (updatePasses k)

/-- The function `draw` (main.go lines 278-290) with the method `(c *cell) draw`
(lines 27-34): the handles of the cells drawn, in the order of the loop; a cell is
drawn when its `alive` is set. -/
def draw (cells : Grid) : List Nat :=
  (cells.flatten.filter fun c => c.alive).map fun c => c.drawable

/-- A value of type `float64` as `strconv.ParseFloat` can return it: not-a-number, an
infinity, or a finite value (a rational). -/
inductive F64 where
  | nan : F64
  | posInf : F64
  | negInf : F64
  | finite (q : Rat) : F64

/-- The comparison `t >= 0` on `float64`. -/
def F64.ge0 : F64 → Bool
  | F64.nan => false
  | F64.posInf => true
  | F64.negInf => false
  | F64.finite q => decide (0 ≤ q)

/-- The comparison `t <= 1` on `float64`. -/
def F64.le1 : F64 → Bool
  | F64.nan => false
  | F64.posInf => false
  | F64.negInf => true
  | F64.finite q => decide (q ≤ 1)

/-- The conversion `float32(t)`: exact on the finite results of `ParseFloat(s, 32)`,
the only values it is applied to. -/
def F64.float32 : F64 → Rat
  | F64.finite q => q
  | _ => 0

/-- The two functions of the package `strconv` the flag loop calls; `none` is a
non-nil `err`. -/
structure Strconv where
  atoi : String → Option Int
  parseFloat : String → Option F64

/-- The package variables `fps`, `threshold` and `pattern`. -/
structure Config where
  fps : Int
  threshold : Rat
  pattern : String

/-- The initial values of the package variables (main.go lines 117-119). -/
def defaultConfig : Config := { fps := 10, threshold := 15 / 100, pattern := "random" }

/-- The assignment guarded by `err == nil && fpsArg > 0` (main.go lines 184-188). -/
def setFps (sc : Strconv) (v : String) (cfg : Config) : Config :=
  match sc.atoi v with
  | some fpsArg => if fpsArg > 0 then { cfg with fps := fpsArg } else cfg
  | none => cfg

/-- The assignment guarded by `err == nil && thresholdArg >= 0 && thresholdArg <= 1`
(main.go lines 195-199). -/
def setThreshold (sc : Strconv) (v : String) (cfg : Config) : Config :=
  match sc.parseFloat v with
  | some thresholdArg =>
    if thresholdArg.ge0 && thresholdArg.le1 then { cfg with threshold := thresholdArg.float32 }
    else cfg
  | none => cfg

/-- The assignment guarded by `_, ok := patterns[patternArg]; ok` (main.go lines
206-211). -/
def setPattern (v : String) (cfg : Config) : Config :=
  if (patterns v).isSome then { cfg with pattern := v } else cfg

/-- One iteration of the flag loop of `main` (main.go lines 180-216) at index `i`,
with the `i++` of the `for` statement: the next index and the variables; `none` is
an out-of-range panic.  A flag in the last position has no value and only prints a
diagnostic; `--fps` and `--threshold` skip their value (`i++`), `--pattern` does
not.  The diagnostics written to the error stream do not touch the variables. -/
def flagStep (sc : Strconv) (arguments : List String) (i : Nat) (cfg : Config) :
    Option (Nat × Config) :=
  match arguments[i]? with
  | none => none
  | some a =>
    if a = "--fps" ∨ a = "-f" then
      if i + 1 < arguments.length then
        match arguments[i + 1]? with
        | none => none
        | some v => some (i + 1 + 1, setFps sc v cfg)
      else some (i + 1, cfg)
    else if a = "--threshold" ∨ a = "-t" then
      if i + 1 < arguments.length then
        match arguments[i + 1]? with
        | none => none
        | some v => some (i + 1 + 1, setThreshold sc v cfg)
      else some (i + 1, cfg)
    else if a = "--pattern" ∨ a = "-p" then
      if i + 1 < arguments.length then
        match arguments[i + 1]? with
        | none => none
        | some v => some (i + 1, setPattern v cfg)
      else some (i + 1, cfg)
    else some (i + 1, cfg)

/-- The flag loop of `main`, `for i := 0; i < len(arguments); i++`, run from index
`i` for at most `fuel` iterations; `none` is a panic or the lack of fuel. -/
def flagLoop (sc : Strconv) (arguments : List String) : Nat → Nat → Config → Option Config
  | 0, _, _ => none
  | fuel + 1, i, cfg =>
    if i < arguments.length then
      match flagStep sc arguments i cfg with
      | none => none
      | some s => flagLoop sc arguments fuel s.1 s.2
    else some cfg

/-- The division `time.Second/time.Duration(fps)` of the frame loop (main.go line
231), in nanoseconds; `none` is the division-by-zero panic. -/
def frameBudget (cfg : Config) : Option Int :=
  if cfg.fps = 0 then none else some (Int.tdiv 1000000000 cfg.fps)

/-! ## Notions used to state the claims about passes and flags -/

/-- A rectangular `R × C` grid whose cells carry their own position, as every grid
built by `makecells` does. -/
def WellFormed (R C : Nat) (cells : Grid) : Prop :=
  cells.length = R ∧ (∀ r, r ∈ cells → r.length = C) ∧
    ∀ i j c, load cells i j = some c → c.x = (i : Int) ∧ c.y = (j : Int)

/-- The cell at `(i, j)` of the grid, as a total function of the position. -/
def cellAt (cells : Grid) (i j : Nat) : Cell :=
  (load cells i j).getD { drawable := 0, alive := false, aliveNext := false, x := i, y := j }

/-- The fields of the cells that are not Boolean, row by row. -/
def frameOf (cells : Grid) : List (List (Nat × Int × Int)) :=
  cells.map fun r => r.map fun c => (c.drawable, c.x, c.y)

/-- The calls of `checkState` of one update pass made in a given order of the
positions, instead of the row-major order of the loop of `main`. -/
def visit (order : List (Nat × Nat)) (cells : Grid) : Option Grid :=
  order.foldlM (fun g p => checkState g p.1 p.2) cells

/-- The cell function that agrees with `g` on the positions of the list and with `f`
elsewhere. -/
def done (f g : Nat → Nat → Cell) (visited : List (Nat × Nat)) : Nat → Nat → Cell :=
  fun p q => if (p, q) ∈ visited then g p q else f p q

/-- The contribution of a cell to a neighbour count. -/
def lit (b : Bool) : Int := if b then 1 else 0

/-- A valid configuration: a positive `fps`, a `threshold` within `[0, 1]` and a
pattern name that is a key of `patterns`. -/
def Config.valid (cfg : Config) : Prop :=
  0 < cfg.fps ∧ 0 ≤ cfg.threshold ∧ cfg.threshold ≤ 1 ∧
    (cfg.pattern = "random" ∨ cfg.pattern = "blinker" ∨ cfg.pattern = "glider" ∨
      cfg.pattern = "lightweightspaceship" ∨ cfg.pattern = "pulsar")

/-! ## Further sample inputs -/

/-- A grid with three rows and two columns whose only live cell is `(0, 0)`. -/
def grid32 : Grid :=
  [[sampleCell true true 0 0, sampleCell false false 0 1],
   [sampleCell false false 1 0, sampleCell false false 1 1],
   [sampleCell false false 2 0, sampleCell false false 2 1]]

/-- The grid returned by `makecells("random")` for the run `edgeEnv`: `(1, 0)` is the
only live cell. -/
def edgeGrid : Grid := tab (randomCell edgeEnv) row columns

/-- A `2 × 2` block of live cells in the middle of the grid, as a predicate on
positions. -/
def blockAlive (p q : Nat) : Bool := decide ((p = 49 ∨ p = 50) ∧ (q = 49 ∨ q = 50))

/-- A run of the random source that makes the block `blockAlive` the live cells. -/
def blockEnv : Env :=
  { makeVao := fun _ _ => 0
    randFloat32 := fun x y => if (x = 49 ∨ x = 50) ∧ (y = 49 ∨ y = 50) then 0 else 1 / 2
    threshold := 1 / 4 }

/-- The grid returned by `makecells("random")` for the run `blockEnv`. -/
def blockGrid : Grid := tab (randomCell blockEnv) row columns

/-- A `strconv` that reads a few numerals. -/
def sampleStrconv : Strconv :=
  { atoi := fun s => if s = "30" then some 30 else if s = "0" then some 0 else none
    parseFloat := fun s =>
      if s = "0.5" then some (F64.finite (1 / 2))
      else if s = "2" then some (F64.finite 2)
      else if s = "NaN" then some F64.nan else none }

/-! ## Basic facts about `index`, `load` and `store` -/

theorem index_natCast {α : Type} (xs : List α) (i : Nat) : index xs (i : Int) = xs[i]? := by
  simp [index]

theorem index_of_nonneg {α : Type} (xs : List α) (z : Int) (h : 0 ≤ z) :
    index xs z = xs[z.toNat]? := by
  simp [index, not_lt.mpr h]

theorem store_length (cells : Grid) (i j : Nat) (c : Cell) :
    (store cells i j c).length = cells.length := by
  unfold store
  split <;> simp

theorem load_store_same (cells : Grid) (i j : Nat) (c d : Cell)
    (h : load cells i j = some d) : load (store cells i j c) i j = some c := by
  unfold load at h
  unfold load store
  cases hr : cells[i]? with
  | none => simp [hr] at h
  | some r =>
    simp only [hr] at h
    have hi : i < cells.length := by
      rcases List.getElem?_eq_some.mp hr with ⟨hi, _⟩
      exact hi
    have hj : j < r.length := by
      rcases List.getElem?_eq_some.mp h with ⟨hj, _⟩
      exact hj
    simp [List.getElem?_set, hi, hj]

/-! ## Frame and range of `liveNeighbours` -/

theorem add_frame (s s' : Frame) (x y : Int) (h : add s x y = some s') :
    s'.cells = s.cells ∧ (s'.liveCount = s.liveCount ∨ s'.liveCount = s.liveCount + 1) := by
  unfold add at h
  simp only at h
  split at h
  · exact absurd h (by simp)
  · split at h
    · exact absurd h (by simp)
    · split at h
      · cases h; simp
      · cases h; simp

theorem liveNeighbours_frame (cells g : Grid) (c : Cell) (n : Int)
    (h : liveNeighbours cells c = some (g, n)) : g = cells ∧ 0 ≤ n ∧ n ≤ 8 := by
  unfold liveNeighbours at h
  simp only [Option.bind_eq_bind, Option.pure_def, Option.bind_eq_some] at h
  obtain ⟨s1, h1, s2, h2, s3, h3, s4, h4, s5, h5, s6, h6, s7, h7, s8, h8, h⟩ := h
  have e1 := add_frame _ _ _ _ h1
  have e2 := add_frame _ _ _ _ h2
  have e3 := add_frame _ _ _ _ h3
  have e4 := add_frame _ _ _ _ h4
  have e5 := add_frame _ _ _ _ h5
  have e6 := add_frame _ _ _ _ h6
  have e7 := add_frame _ _ _ _ h7
  have e8 := add_frame _ _ _ _ h8
  simp only [Option.some.injEq, Prod.mk.injEq] at h
  obtain ⟨hg, hn⟩ := h
  simp only at e1
  refine ⟨?_, ?_, ?_⟩
  · rw [← hg, e8.1, e7.1, e6.1, e5.1, e4.1, e3.1, e2.1, e1.1]
  · omega
  · omega

/-! ## Loops -/

theorem foldlM_range_chain {σ : Type} (step : σ → Nat → Option σ) (S : Nat → σ) (n : Nat)
    (h : ∀ k, k < n → step (S k) k = some (S (k + 1))) :
    (List.range n).foldlM step (S 0) = some (S n) := by
  induction n with
  | zero => rfl
  | succ m ih =>
    have ih1 := ih (fun k hk => h k (Nat.lt_succ_of_lt hk))
    rw [List.range_succ, List.foldlM_append, ih1]
    simp [h m (Nat.lt_succ_self m)]

/-! ## Rectangular grids -/

theorem tab_length (f : Nat → Nat → Cell) (R C : Nat) : (tab f R C).length = R := by
  simp [tab]

theorem tab_row (f : Nat → Nat → Cell) (R C i : Nat) (h : i < R) :
    (tab f R C)[i]? = some ((List.range C).map (f i)) := by
  simp [tab, List.getElem?_map, List.getElem?_range h]

theorem tab_congr (f g : Nat → Nat → Cell) (R C : Nat)
    (h : ∀ i, i < R → ∀ j, j < C → f i j = g i j) : tab f R C = tab g R C := by
  unfold tab
  apply List.map_congr_left
  intro i hi
  apply List.map_congr_left
  intro j hj
  exact h i (List.mem_range.mp hi) j (List.mem_range.mp hj)

theorem load_tab (f : Nat → Nat → Cell) (R C i j : Nat) (hi : i < R) (hj : j < C) :
    load (tab f R C) i j = some (f i j) := by
  simp [load, tab_row f R C i hi, List.getElem?_map, List.getElem?_range hj]

theorem set_map_range {α : Type} (g : Nat → α) (n j : Nat) (a : α) :
    ((List.range n).map g).set j a = (List.range n).map (fun q => if q = j then a else g q) := by
  apply List.ext_getElem?
  intro k
  rw [List.getElem?_set]
  by_cases hk : k < n
  · by_cases hjk : j = k
    · subst hjk
      simp [List.getElem?_map, List.getElem?_range hk, hk]
    · have hkj : ¬ k = j := fun e => hjk e.symm
      simp [List.getElem?_map, List.getElem?_range hk, hjk, hkj]
  · have hk1 : n ≤ k := Nat.le_of_not_lt hk
    have e1 : ((List.range n).map g)[k]? = none := by
      apply List.getElem?_eq_none; simpa using hk1
    have e2 : ((List.range n).map (fun q => if q = j then a else g q))[k]? = none := by
      apply List.getElem?_eq_none; simpa using hk1
    rw [e1, e2]
    split
    · split
      · rename_i h1 h2
        simp at h2
        omega
      · rfl
    · rfl

theorem store_tab (f : Nat → Nat → Cell) (R C i j : Nat) (c : Cell) (hi : i < R) :
    store (tab f R C) i j c = tab (upd f i j c) R C := by
  unfold store
  rw [tab_row f R C i hi]
  simp only
  rw [set_map_range]
  unfold tab
  rw [set_map_range]
  apply List.map_congr_left
  intro p _
  by_cases hp : p = i
  · subst hp
    simp [upd]
  · simp only [hp, if_false]
    apply List.map_congr_left
    intro q _
    simp [upd, hp]

theorem index_map_range {α : Type} (g : Nat → α) (n : Nat) (z : Int) (h0 : 0 ≤ z)
    (h1 : z < (n : Int)) : index ((List.range n).map g) z = some (g z.toNat) := by
  have hz : z.toNat < n := by omega
  rw [index_of_nonneg _ _ h0]
  simp [List.getElem?_map, List.getElem?_range hz]

theorem index_tab (f : Nat → Nat → Cell) (R C : Nat) (z : Int) (h0 : 0 ≤ z)
    (h1 : z < (R : Int)) : index (tab f R C) z = some ((List.range C).map (f z.toNat)) := by
  unfold tab
  exact index_map_range _ R z h0 h1

/-! ## `liveNeighbours` and `checkState` on rectangular grids -/

theorem wrapX_lt (R : Nat) (x : Int) (hR : 1 ≤ R) (h1 : x ≤ (R : Int)) :
    wrapX R x < R := by
  unfold wrapX
  split
  · simp; omega
  · split <;> omega

theorem wrapY_lt (C : Nat) (y : Int) (hC : 2 ≤ C) (h1 : y ≤ (C : Int)) :
    wrapY C y < C := by
  unfold wrapY
  split
  · simp; omega
  · split <;> omega

theorem add_tab (f : Nat → Nat → Cell) (R C : Nat) (k x y : Int) (hR : 1 ≤ R) (hC : 2 ≤ C)
    (hx0 : -1 ≤ x) (hx1 : x ≤ (R : Int)) (hy0 : -1 ≤ y) (hy1 : y ≤ (C : Int)) :
    add { cells := tab f R C, liveCount := k } x y =
      some { cells := tab f R C,
             liveCount := k + bump (fun p q => (f p q).alive) R C x y } := by
  have ex : index (tab f R C)
      (if x = (R : Int) then 0 else if x = -1 then (R : Int) - 1 else x) =
      some ((List.range C).map (f (wrapX R x))) := by
    rw [index_tab]
    · rfl
    · split
      · omega
      · split <;> omega
    · split
      · omega
      · split <;> omega
  have ey : index ((List.range C).map (f (wrapX R x)))
      (if y = (C : Int) then 1 else if y = -1 then (C : Int) - 1 else y) =
      some (f (wrapX R x) (wrapY C y)) := by
    rw [index_map_range]
    · rfl
    · split
      · omega
      · split <;> omega
    · split
      · omega
      · split <;> omega
  unfold add
  simp only [tab_length, ex, List.length_map, List.length_range, ey, bump]
  split <;> simp

theorem liveNeighbours_tab (f : Nat → Nat → Cell) (R C i j : Nat) (c : Cell) (hC : 2 ≤ C)
    (hi : i < R) (hj : j < C) (hx : c.x = (i : Int)) (hy : c.y = (j : Int)) :
    liveNeighbours (tab f R C) c =
      some (tab f R C, nbCount (fun p q => (f p q).alive) R C i j) := by
  have hR : 1 ≤ R := by omega
  unfold liveNeighbours
  simp only [hx, hy, Option.bind_eq_bind, Option.pure_def]
  rw [add_tab f R C _ _ _ hR hC (by omega) (by omega) (by omega) (by omega)]
  simp only [Option.some_bind]
  rw [add_tab f R C _ _ _ hR hC (by omega) (by omega) (by omega) (by omega)]
  simp only [Option.some_bind]
  rw [add_tab f R C _ _ _ hR hC (by omega) (by omega) (by omega) (by omega)]
  simp only [Option.some_bind]
  rw [add_tab f R C _ _ _ hR hC (by omega) (by omega) (by omega) (by omega)]
  simp only [Option.some_bind]
  rw [add_tab f R C _ _ _ hR hC (by omega) (by omega) (by omega) (by omega)]
  simp only [Option.some_bind]
  rw [add_tab f R C _ _ _ hR hC (by omega) (by omega) (by omega) (by omega)]
  simp only [Option.some_bind]
  rw [add_tab f R C _ _ _ hR hC (by omega) (by omega) (by omega) (by omega)]
  simp only [Option.some_bind]
  rw [add_tab f R C _ _ _ hR hC (by omega) (by omega) (by omega) (by omega)]
  simp only [Option.some_bind]
  rfl

theorem upd_upd (f : Nat → Nat → Cell) (i j : Nat) (c d : Cell) :
    upd (upd f i j c) i j d = upd f i j d := by
  funext p q
  unfold upd
  split <;> rfl

theorem applyRule_alive (c : Cell) (n : Int) : (applyRule c n).alive = c.alive := by
  unfold applyRule
  simp only
  split
  · split <;> split <;> split <;> rfl
  · split <;> rfl

theorem applyRule_x (c : Cell) (n : Int) : (applyRule c n).x = c.x := by
  unfold applyRule
  simp only
  split
  · split <;> split <;> split <;> rfl
  · split <;> rfl

theorem applyRule_y (c : Cell) (n : Int) : (applyRule c n).y = c.y := by
  unfold applyRule
  simp only
  split
  · split <;> split <;> split <;> rfl
  · split <;> rfl

theorem applyRule_drawable (c : Cell) (n : Int) : (applyRule c n).drawable = c.drawable := by
  unfold applyRule
  simp only
  split
  · split <;> split <;> split <;> rfl
  · split <;> rfl

/-- The next state the if-chain of `checkState` writes, as one Boolean expression. -/
theorem applyRule_aliveNext (c : Cell) (n : Int) (h : c.aliveNext = c.alive) :
    (applyRule c n).aliveNext = if c.alive then decide (n = 2 ∨ n = 3) else decide (n = 3) := by
  unfold applyRule
  by_cases ha : c.alive = true
  · simp only [ha, if_true]
    by_cases h23 : n = 2 ∨ n = 3
    · have h1 : ¬ n < 2 := by omega
      have h2 : ¬ n > 3 := by omega
      simp [h23, h1, h2]
    · by_cases h1 : n < 2
      · have h2 : ¬ n > 3 := by omega
        simp [h23, h1, h2]
      · have h2 : n > 3 := by omega
        simp [h23, h1, h2]
  · have ha2 : c.alive = false := by simpa using ha
    simp only [ha2]
    by_cases h3 : n = 3
    · simp [h3]
    · simp [h3, h, ha2]

theorem checkState_tab (f : Nat → Nat → Cell) (R C i j : Nat) (hC : 2 ≤ C)
    (hi : i < R) (hj : j < C) (hx : (f i j).x = (i : Int)) (hy : (f i j).y = (j : Int)) :
    checkState (tab f R C) i j =
      some (tab (upd f i j
        (applyRule { f i j with alive := (f i j).aliveNext }
          (nbCount (fun p q => (upd f i j { f i j with alive := (f i j).aliveNext } p q).alive)
            R C i j))) R C) := by
  unfold checkState
  simp only [load_tab f R C i j hi hj, Option.bind_eq_bind, Option.some_bind, Option.pure_def]
  rw [store_tab f R C i j _ hi]
  rw [liveNeighbours_tab _ R C i j _ hC hi hj (by exact hx) (by exact hy)]
  simp only [Option.some_bind]
  rw [store_tab _ R C i j _ hi, upd_upd]

/-! ## The update pass on rectangular grids -/

theorem midPass_self (f : Nat → Nat → Cell) (R C i n : Nat) :
    midPass f R C i n i n = f i n := by
  unfold midPass
  have h : ¬ (i < i ∨ (i = i ∧ n < n)) := by omega
  rw [if_neg h]

theorem seen_midPass (f : Nat → Nat → Cell) (R C i n : Nat) :
    (fun p q => (upd (midPass f R C i n) i n
      { f i n with alive := (f i n).aliveNext } p q).alive) = seen f i n := by
  funext p q
  unfold upd seen midPass
  by_cases h1 : p = i ∧ q = n
  · have h2 : p < i ∨ (p = i ∧ q ≤ n) := by omega
    simp only [h1, and_self, if_true, h2]
    simp
  · by_cases h3 : p < i ∨ (p = i ∧ q < n)
    · have h2 : p < i ∨ (p = i ∧ q ≤ n) := by omega
      simp only [h1, if_false, h3, if_true, h2]
      unfold stepCell
      rw [applyRule_alive]
    · have h2 : ¬ (p < i ∨ (p = i ∧ q ≤ n)) := by omega
      simp only [h1, if_false, h3, h2]

theorem checkState_midPass (f : Nat → Nat → Cell) (R C i n : Nat) (hC : 2 ≤ C)
    (hi : i < R) (hn : n < C) (hx : (f i n).x = (i : Int)) (hy : (f i n).y = (n : Int)) :
    checkState (tab (midPass f R C i n) R C) i n = some (tab (midPass f R C i (n + 1)) R C) := by
  rw [checkState_tab _ R C i n hC hi hn (by rw [midPass_self]; exact hx)
    (by rw [midPass_self]; exact hy)]
  rw [midPass_self, seen_midPass]
  congr 2
  funext p q
  unfold upd
  by_cases h1 : p = i ∧ q = n
  · obtain ⟨hp, hq⟩ := h1
    subst hp
    subst hq
    have h2 : p < p ∨ (p = p ∧ q < q + 1) := by omega
    simp only [and_self, if_true]
    unfold midPass
    rw [if_pos h2]
    rfl
  · simp only [h1, if_false]
    unfold midPass
    by_cases h3 : p < i ∨ (p = i ∧ q < n)
    · have h2 : p < i ∨ (p = i ∧ q < n + 1) := by omega
      simp only [h3, h2, if_true]
    · have h2 : ¬ (p < i ∨ (p = i ∧ q < n + 1)) := by omega
      simp only [h3, h2, if_false]

theorem updateRow_midPass (f : Nat → Nat → Cell) (R C i : Nat) (hC : 2 ≤ C) (hi : i < R)
    (hxy : ∀ q, q < C → (f i q).x = (i : Int) ∧ (f i q).y = (q : Int)) :
    updateRow i (tab (midPass f R C i 0) R C) = some (tab (midPass f R C (i + 1) 0) R C) := by
  have hlen : ((tab (midPass f R C i 0) R C).getD i []).length = C := by
    rw [List.getD_eq_getElem?_getD, tab_row _ R C i hi]
    simp
  unfold updateRow
  rw [hlen]
  rw [foldlM_range_chain (fun g y => checkState g i y)
    (fun n => tab (midPass f R C i n) R C) C
    (fun n hn => checkState_midPass f R C i n hC hi hn (hxy n hn).1 (hxy n hn).2)]
  congr 1
  apply tab_congr
  intro p _ q hq
  unfold midPass
  by_cases h3 : p < i ∨ (p = i ∧ q < C)
  · have h2 : p < i + 1 ∨ (p = i + 1 ∧ q < 0) := by omega
    simp only [h3, h2, if_true]
  · have h2 : ¬ (p < i + 1 ∨ (p = i + 1 ∧ q < 0)) := by omega
    simp only [h3, h2, if_false]

/-- One update pass over a rectangular grid with at least two columns whose cells
carry their own coordinates: the pass succeeds, and the cell at `(i, j)` becomes
`stepCell f R C i j`. -/
theorem updatePass_tab (f : Nat → Nat → Cell) (R C : Nat) (hC : 2 ≤ C)
    (hxy : ∀ p, p < R → ∀ q, q < C → (f p q).x = (p : Int) ∧ (f p q).y = (q : Int)) :
    updatePass (tab f R C) = some (tab (stepCell f R C) R C) := by
  have h0 : tab f R C = tab (midPass f R C 0 0) R C := by
    apply tab_congr
    intro p _ q _
    unfold midPass
    have h2 : ¬ (p < 0 ∨ (p = 0 ∧ q < 0)) := by omega
    simp only [h2, if_false]
  have h1 : tab (midPass f R C R 0) R C = tab (stepCell f R C) R C := by
    apply tab_congr
    intro p hp q _
    unfold midPass
    have h2 : p < R ∨ (p = R ∧ q < 0) := by omega
    simp only [h2, if_true]
  unfold updatePass
  rw [tab_length]
  conv_lhs => rw [h0]
  rw [foldlM_range_chain (fun g x => updateRow x g)
    (fun i => tab (midPass f R C i 0) R C) R
    (fun i hi => updateRow_midPass f R C i hC hi (hxy i hi))]
  rw [h1]

/-! ## The creation loops of `makecells` -/

theorem createCell_building (env : Env) (x n : Nat) (hx : x < row) :
    createCell env x (building env x n) n = some (building env x (n + 1)) := by
  have hrow : (building env x n)[x]? = some ((List.range n).map (newCell env x)) := by
    unfold building
    rw [List.getElem?_map, List.getElem?_range hx]
    simp
  unfold createCell
  simp only [hrow, Option.bind_eq_bind, Option.some_bind, Option.pure_def]
  congr 1
  unfold building
  rw [set_map_range]
  apply List.map_congr_left
  intro p _
  by_cases hp : p = x
  · subst hp
    simp [List.range_succ, newCell]
  · simp only [hp, if_false]

theorem createCells_eq (env : Env) : createCells env = some (tab (newCell env) row columns) := by
  have h0 : List.replicate row ([] : List Cell) = building env 0 0 := by
    unfold building
    apply List.ext_getElem?
    intro k
    by_cases hk : k < row
    · rw [List.getElem?_map, List.getElem?_range hk]
      simp [hk]
    · have hk1 : row ≤ k := Nat.le_of_not_lt hk
      rw [List.getElem?_eq_none (by simpa using hk1), List.getElem?_eq_none (by simpa using hk1)]
  have h1 : building env row 0 = tab (newCell env) row columns := by
    unfold building tab
    apply List.map_congr_left
    intro p hp
    have hp1 : p < row := List.mem_range.mp hp
    simp [hp1]
  have hrowstep : ∀ x, x < row →
      (List.range columns).foldlM (createCell env x) (building env x 0) =
        some (building env (x + 1) 0) := by
    intro x hx
    rw [foldlM_range_chain (createCell env x) (fun n => building env x n) columns
      (fun n _ => createCell_building env x n hx)]
    congr 1
    unfold building
    apply List.map_congr_left
    intro p _
    by_cases h1 : p < x
    · have h2 : p < x + 1 := by omega
      simp [h1, h2]
    · by_cases h3 : p = x
      · subst h3
        simp
      · have h2 : ¬ p < x + 1 := by omega
        simp only [h1, h2, h3, if_false]
        split <;> simp
  unfold createCells
  rw [h0]
  rw [foldlM_range_chain
    (fun cells x => (List.range columns).foldlM (createCell env x) cells)
    (fun x => building env x 0) row hrowstep]
  rw [h1]

/-! ## Row-major loops that rewrite one cell at a time -/

theorem sweep (step : Grid → Nat → Nat → Option Grid) (f g : Nat → Nat → Cell) (R C : Nat)
    (h : ∀ i n, i < R → n < C →
      step (tab (mid f g i n) R C) i n = some (tab (mid f g i (n + 1)) R C)) :
    (List.range R).foldlM
      (fun cells x => (List.range C).foldlM (fun cells y => step cells x y) cells)
      (tab f R C) = some (tab g R C) := by
  have h0 : tab f R C = tab (mid f g 0 0) R C := by
    apply tab_congr
    intro p _ q _
    unfold mid
    have h2 : ¬ (p < 0 ∨ (p = 0 ∧ q < 0)) := by omega
    rw [if_neg h2]
  have h1 : tab (mid f g R 0) R C = tab g R C := by
    apply tab_congr
    intro p hp q _
    unfold mid
    have h2 : p < R ∨ (p = R ∧ q < 0) := by omega
    rw [if_pos h2]
  have hrowstep : ∀ i, i < R →
      (List.range C).foldlM (fun cells y => step cells i y) (tab (mid f g i 0) R C) =
        some (tab (mid f g (i + 1) 0) R C) := by
    intro i hi
    rw [foldlM_range_chain (fun cells y => step cells i y) (fun n => tab (mid f g i n) R C) C
      (fun n hn => h i n hi hn)]
    congr 1
    apply tab_congr
    intro p _ q hq
    unfold mid
    by_cases h3 : p < i ∨ (p = i ∧ q < C)
    · have h2 : p < i + 1 ∨ (p = i + 1 ∧ q < 0) := by omega
      rw [if_pos h3, if_pos h2]
    · have h2 : ¬ (p < i + 1 ∨ (p = i + 1 ∧ q < 0)) := by omega
      rw [if_neg h3, if_neg h2]
  rw [h0]
  rw [foldlM_range_chain
    (fun cells x => (List.range C).foldlM (fun cells y => step cells x y) cells)
    (fun i => tab (mid f g i 0) R C) R hrowstep]
  rw [h1]

theorem upd_mid (f g : Nat → Nat → Cell) (i n : Nat) :
    upd (mid f g i n) i n (g i n) = mid f g i (n + 1) := by
  funext p q
  unfold upd mid
  by_cases h1 : p = i ∧ q = n
  · have h2 : p < i ∨ (p = i ∧ q < n + 1) := by omega
    rw [if_pos h1, if_pos h2, h1.1, h1.2]
  · rw [if_neg h1]
    by_cases h3 : p < i ∨ (p = i ∧ q < n)
    · have h2 : p < i ∨ (p = i ∧ q < n + 1) := by omega
      rw [if_pos h3, if_pos h2]
    · have h2 : ¬ (p < i ∨ (p = i ∧ q < n + 1)) := by omega
      rw [if_neg h3, if_neg h2]

theorem mid_self (f g : Nat → Nat → Cell) (i n : Nat) : mid f g i n i n = f i n := by
  unfold mid
  have h : ¬ (i < i ∨ (i = i ∧ n < n)) := by omega
  rw [if_neg h]

/-! ## The random branch of `makecells` -/

theorem seedRandom_eq (env : Env) :
    seedRandom env (tab (newCell env) row columns) = some (tab (randomCell env) row columns) := by
  unfold seedRandom
  apply sweep (fun cells x y => seedRandomCell env x cells y)
  intro i n hi hn
  unfold seedRandomCell
  simp only [load_tab _ row columns i n hi hn, Option.bind_eq_bind, Option.some_bind,
    Option.pure_def]
  rw [store_tab _ row columns i n _ hi, mid_self, ← upd_mid]
  rfl

/-! ## The pattern branch of `makecells` -/

theorem loadAt_tab (f : Nat → Nat → Cell) (R C : Nat) (x y : Int) (hx0 : 0 ≤ x)
    (hx1 : x < (R : Int)) (hy0 : 0 ≤ y) (hy1 : y < (C : Int)) :
    loadAt (tab f R C) x y = some (f x.toNat y.toNat) := by
  unfold loadAt
  rw [index_tab f R C x hx0 hx1]
  simp only
  rw [index_map_range _ C y hy0 hy1]

theorem seeded_nil (f : Nat → Nat → Cell) (offsetX offsetY : Int) :
    seeded f [] offsetX offsetY = f := by
  funext i j
  simp [seeded, hit]

theorem setAlive_setAlive (c : Cell) : setAlive (setAlive c) = setAlive c := rfl

theorem seeded_cons (f : Nat → Nat → Cell) (coord : List Int) (l : List (List Int))
    (offsetX offsetY : Int) :
    seeded (seeded f [coord] offsetX offsetY) l offsetX offsetY =
      seeded f (coord :: l) offsetX offsetY := by
  funext i j
  unfold seeded
  by_cases hl : hit l offsetX offsetY i j = true
  · have hcl : hit (coord :: l) offsetX offsetY i j = true := by
      unfold hit at hl ⊢
      rw [List.any_cons, hl, Bool.or_true]
    rw [if_pos hl, if_pos hcl]
    split
    · exact setAlive_setAlive _
    · rfl
  · have hcl : hit (coord :: l) offsetX offsetY i j = hit [coord] offsetX offsetY i j := by
      have hl2 : hit l offsetX offsetY i j = false := by simpa using hl
      unfold hit at hl2 ⊢
      rw [List.any_cons, hl2, List.any_cons, List.any_nil]
    rw [if_neg hl, hcl]

theorem seedCoord_tab (f : Nat → Nat → Cell) (offsetX offsetY : Int) (coord : List Int)
    (x y : Int) (h0 : index coord 0 = some x) (h1 : index coord 1 = some y)
    (hx : 0 ≤ x + offsetX) (hy : 0 ≤ y + offsetY) :
    seedCoord offsetX offsetY (tab f row columns) coord =
      some (tab (seeded f [coord] offsetX offsetY) row columns) := by
  unfold seedCoord
  simp only [h0, h1, Option.bind_eq_bind, Option.some_bind, Option.pure_def]
  by_cases hin : x + offsetX < (row : Int) ∧ y + offsetY < (columns : Int)
  · rw [if_pos hin]
    rw [loadAt_tab f row columns _ _ hx hin.1 hy hin.2]
    simp only [Option.some_bind]
    rw [store_tab _ row columns _ _ _ (by omega)]
    congr 1
    apply tab_congr
    intro p _ q _
    unfold upd seeded hit
    simp only [List.any_cons, List.any_nil, Bool.or_false, h0, h1, Option.some.injEq,
      decide_eq_true_eq]
    by_cases hpq : p = (x + offsetX).toNat ∧ q = (y + offsetY).toNat
    · have h2 : x = (p : Int) - offsetX ∧ y = (q : Int) - offsetY := by omega
      rw [if_pos hpq, if_pos h2, hpq.1, hpq.2]
      rfl
    · have h2 : ¬ (x = (p : Int) - offsetX ∧ y = (q : Int) - offsetY) := by omega
      rw [if_neg hpq, if_neg h2]
  · rw [if_neg hin]
    congr 1
    apply tab_congr
    intro p hp q hq
    unfold seeded hit
    simp only [List.any_cons, List.any_nil, Bool.or_false, h0, h1, Option.some.injEq,
      decide_eq_true_eq]
    have h2 : ¬ (x = (p : Int) - offsetX ∧ y = (q : Int) - offsetY) := by omega
    rw [if_neg h2]

theorem seedCoords_tab (offsetX offsetY : Int) (l : List (List Int)) :
    ∀ (f : Nat → Nat → Cell),
    (∀ coord, coord ∈ l → ∃ x y, index coord 0 = some x ∧ index coord 1 = some y ∧
      0 ≤ x + offsetX ∧ 0 ≤ y + offsetY) →
    l.foldlM (seedCoord offsetX offsetY) (tab f row columns) =
      some (tab (seeded f l offsetX offsetY) row columns) := by
  induction l with
  | nil =>
    intro f _
    rw [seeded_nil]
    rfl
  | cons coord l ih =>
    intro f h
    obtain ⟨x, y, h0, h1, hx, hy⟩ := h coord (List.mem_cons_self _ _)
    rw [List.foldlM_cons, seedCoord_tab f offsetX offsetY coord x y h0 h1 hx hy]
    simp only [Option.bind_eq_bind, Option.some_bind]
    rw [ih _ (fun c hc => h c (List.mem_cons_of_mem _ hc)), seeded_cons]

theorem coordsOk_spec (l : List (List Int)) (offsetX offsetY : Int)
    (h : coordsOk l offsetX offsetY = true) :
    ∀ coord, coord ∈ l → ∃ x y, index coord 0 = some x ∧ index coord 1 = some y ∧
      0 ≤ x + offsetX ∧ 0 ≤ y + offsetY := by
  intro coord hc
  unfold coordsOk at h
  rw [List.all_eq_true] at h
  have h1 := h coord hc
  split at h1
  · rename_i x y e0 e1
    have h2 : 0 ≤ x + offsetX ∧ 0 ≤ y + offsetY := by simpa using h1
    exact ⟨x, y, e0, e1, h2.1, h2.2⟩
  · exact absurd h1 (by simp)

/-! ## `makecells` as a function of the cell position -/

theorem makecells_random (env : Env) (patternName : String)
    (h : patterns patternName = none ∨ patternName = "random") :
    makecells env patternName = some (tab (randomCell env) row columns) := by
  unfold makecells
  simp only [createCells_eq, Option.bind_eq_bind, Option.some_bind]
  rcases h with h | h
  · simp only [h]
    exact seedRandom_eq env
  · subst h
    simp only [ne_eq, not_true_eq_false, decide_False]
    exact seedRandom_eq env

theorem makecells_pattern (env : Env) (patternName : String) (l : List (List Int))
    (maxX maxY : Int) (hp : patterns patternName = some l) (hr : patternName ≠ "random")
    (hm : maxCoords l = some (maxX, maxY))
    (hl : coordsOk l (Int.tdiv ((row : Int) - maxX) 2)
      (Int.tdiv ((columns : Int) - maxY) 2) = true) :
    makecells env patternName =
      some (tab (seeded (newCell env) l (Int.tdiv ((row : Int) - maxX) 2)
        (Int.tdiv ((columns : Int) - maxY) 2)) row columns) := by
  unfold makecells
  simp only [createCells_eq, Option.bind_eq_bind, Option.some_bind, hp]
  have hd : decide (patternName ≠ "random") = true := by simpa using hr
  simp only [hd]
  unfold seedPattern
  simp only [hm, Option.bind_eq_bind, Option.some_bind]
  exact seedCoords_tab _ _ l _ (coordsOk_spec _ _ _ hl)

/-! ## Reference notions on rectangular grids -/

theorem snapshot_tab (f : Nat → Nat → Cell) (R C : Nat) :
    snapshot (tab f R C) = tab (fun i j => { f i j with alive := (f i j).aliveNext }) R C := by
  simp [snapshot, tab, List.map_map, Function.comp_def]

theorem aliveAt_tab (f : Nat → Nat → Cell) (R C : Nat) (x y : Int) (hx0 : 0 ≤ x)
    (hx1 : x < (R : Int)) (hy0 : 0 ≤ y) (hy1 : y < (C : Int)) :
    aliveAt (tab f R C) x y = (f x.toNat y.toNat).alive := by
  unfold aliveAt
  rw [loadAt_tab f R C x y hx0 hx1 hy0 hy1]

theorem toroidalCount_tab (f : Nat → Nat → Cell) (R C : Nat) (x y : Int) (hR : 0 < R)
    (hC : 0 < C) :
    toroidalCount (tab f R C) R C x y =
      (offsets.filter fun d =>
        (f ((x + d.1) % (R : Int)).toNat ((y + d.2) % (C : Int)).toNat).alive).length := by
  unfold toroidalCount
  congr 2
  funext d
  have hR1 : (0 : Int) < (R : Int) := by omega
  have hC1 : (0 : Int) < (C : Int) := by omega
  exact aliveAt_tab f R C _ _ (Int.emod_nonneg _ (by omega)) (Int.emod_lt_of_pos _ hR1)
    (Int.emod_nonneg _ (by omega)) (Int.emod_lt_of_pos _ hC1)

theorem seeded_x (f : Nat → Nat → Cell) (l : List (List Int)) (offsetX offsetY : Int)
    (i j : Nat) : (seeded f l offsetX offsetY i j).x = (f i j).x := by
  unfold seeded
  split <;> rfl

theorem seeded_y (f : Nat → Nat → Cell) (l : List (List Int)) (offsetX offsetY : Int)
    (i j : Nat) : (seeded f l offsetX offsetY i j).y = (f i j).y := by
  unfold seeded
  split <;> rfl

theorem seeded_alive (env : Env) (l : List (List Int)) (offsetX offsetY : Int) (i j : Nat) :
    (seeded (newCell env) l offsetX offsetY i j).alive = hit l offsetX offsetY i j := by
  unfold seeded
  split
  · rename_i h
    rw [h]
    rfl
  · rename_i h
    have h2 : hit l offsetX offsetY i j = false := by simpa using h
    rw [h2]
    rfl

theorem seeded_aliveNext (env : Env) (l : List (List Int)) (offsetX offsetY : Int)
    (i j : Nat) :
    (seeded (newCell env) l offsetX offsetY i j).aliveNext = hit l offsetX offsetY i j := by
  unfold seeded
  split
  · rename_i h
    rw [h]
    rfl
  · rename_i h
    have h2 : hit l offsetX offsetY i j = false := by simpa using h
    rw [h2]
    rfl

theorem stepCell_x (f : Nat → Nat → Cell) (R C i j : Nat) :
    (stepCell f R C i j).x = (f i j).x := by
  unfold stepCell
  rw [applyRule_x]

theorem stepCell_y (f : Nat → Nat → Cell) (R C i j : Nat) :
    (stepCell f R C i j).y = (f i j).y := by
  unfold stepCell
  rw [applyRule_y]

theorem stepCell_alive (f : Nat → Nat → Cell) (R C i j : Nat) :
    (stepCell f R C i j).alive = (f i j).aliveNext := by
  unfold stepCell
  rw [applyRule_alive]

/-- The grid `makecells` returns for the pattern `blinker`. -/
theorem makecells_blinker (env : Env) :
    makecells env "blinker" =
      some (tab (seeded (newCell env) [[0, 1], [1, 1], [2, 1]] 49 49) row columns) := by
  have h := makecells_pattern env "blinker" [[0, 1], [1, 1], [2, 1]] 2 1 (by rfl) (by decide)
    (by rfl) (by decide)
  exact h

/-! ## Coordinates carried by the cells -/

theorem columns_ge_two : 2 ≤ columns := by decide

theorem newCell_coords (env : Env) (p q : Nat) :
    (newCell env p q).x = (p : Int) ∧ (newCell env p q).y = (q : Int) := ⟨rfl, rfl⟩

theorem seeded_coords (env : Env) (l : List (List Int)) (offsetX offsetY : Int) (p q : Nat) :
    (seeded (newCell env) l offsetX offsetY p q).x = (p : Int) ∧
      (seeded (newCell env) l offsetX offsetY p q).y = (q : Int) := by
  rw [seeded_x, seeded_y]
  exact newCell_coords env p q

theorem randomCell_coords (env : Env) (p q : Nat) :
    (randomCell env p q).x = (p : Int) ∧ (randomCell env p q).y = (q : Int) := ⟨rfl, rfl⟩

/-! ## The first generation of the blinker -/

theorem index_pair_zero (x y : Int) : index [x, y] 0 = some x := rfl

theorem index_pair_one (x y : Int) : index [x, y] 1 = some y := rfl

theorem hit_blinker : hit [[0, 1], [1, 1], [2, 1]] 49 49 = blinkerAlive := by
  funext p q
  unfold hit blinkerAlive
  simp only [List.any_cons, List.any_nil, Bool.or_false, index_pair_zero, index_pair_one,
    Option.some.injEq]
  rw [Bool.eq_iff_iff]
  simp only [Bool.or_eq_true, decide_eq_true_eq]
  omega

theorem seen_settled (f : Nat → Nat → Cell) (i j : Nat)
    (h : ∀ p q, (f p q).aliveNext = (f p q).alive) :
    seen f i j = fun p q => (f p q).alive := by
  funext p q
  unfold seen
  split
  · exact h p q
  · rfl

theorem stepCell_settled (f : Nat → Nat → Cell) (R C i j : Nat)
    (h : ∀ p q, (f p q).aliveNext = (f p q).alive) :
    (stepCell f R C i j).aliveNext =
      if (f i j).alive then
        decide (nbCount (fun p q => (f p q).alive) R C i j = 2 ∨
          nbCount (fun p q => (f p q).alive) R C i j = 3)
      else decide (nbCount (fun p q => (f p q).alive) R C i j = 3) := by
  unfold stepCell
  rw [applyRule_aliveNext _ _ rfl, seen_settled f i j h]
  simp only [h i j]

theorem bump_blinker (p q : Int) (h : p < 49 ∨ 51 < p ∨ q < 50 ∨ 50 < q) :
    bump blinkerAlive row columns p q = 0 := by
  unfold bump
  rw [if_neg]
  unfold blinkerAlive wrapX wrapY row columns
  simp only [decide_eq_true_eq]
  split_ifs <;> omega

theorem nbCount_blinker_far (i j : Nat)
    (h : i ≤ 47 ∨ 53 ≤ i ∨ j ≤ 48 ∨ 52 ≤ j) : nbCount blinkerAlive row columns i j = 0 := by
  unfold nbCount
  rw [bump_blinker _ _ (by omega),
    bump_blinker _ _ (by omega),
    bump_blinker _ _ (by omega),
    bump_blinker _ _ (by omega),
    bump_blinker _ _ (by omega),
    bump_blinker _ _ (by omega),
    bump_blinker _ _ (by omega),
    bump_blinker _ _ (by omega)]
  rfl

theorem blinker_step (i j : Nat) (hi : i < 100) (hj : j < 100) :
    (if blinkerAlive i j then
        decide (nbCount blinkerAlive row columns i j = 2 ∨
          nbCount blinkerAlive row columns i j = 3)
      else decide (nbCount blinkerAlive row columns i j = 3)) = true ↔
      (i = 50 ∧ j = 49) ∨ (i = 50 ∧ j = 50) ∨ (i = 50 ∧ j = 51) := by
  by_cases hfar : i ≤ 47 ∨ 53 ≤ i ∨ j ≤ 48 ∨ 52 ≤ j
  · rw [nbCount_blinker_far i j hfar]
    have hd : blinkerAlive i j = false := by
      unfold blinkerAlive
      simp only [decide_eq_false_iff_not]
      omega
    rw [hd]
    constructor
    · intro h
      exact absurd h (by decide)
    · intro h
      omega
  · have h1 : 48 ≤ i := by omega
    have h2 : i ≤ 52 := by omega
    have h3 : 49 ≤ j := by omega
    have h4 : j ≤ 51 := by omega
    clear hfar hi hj
    interval_cases i <;> interval_cases j <;> decide

/-! ## Cells of a rectangular grid -/

theorem mem_tab (f : Nat → Nat → Cell) (R C : Nat) (r : List Cell) (c : Cell)
    (hr : r ∈ tab f R C) (hc : c ∈ r) : ∃ i j, i < R ∧ j < C ∧ c = f i j := by
  unfold tab at hr
  rw [List.mem_map] at hr
  obtain ⟨i, hi, rfl⟩ := hr
  rw [List.mem_map] at hc
  obtain ⟨j, hj, rfl⟩ := hc
  exact ⟨i, j, List.mem_range.mp hi, List.mem_range.mp hj, rfl⟩

theorem tab_row_length (f : Nat → Nat → Cell) (R C : Nat) (r : List Cell)
    (hr : r ∈ tab f R C) : r.length = C := by
  unfold tab at hr
  rw [List.mem_map] at hr
  obtain ⟨i, _, rfl⟩ := hr
  simp

/-! ## Counting the cells a pattern makes alive -/

theorem flatten_tab (f : Nat → Nat → Cell) (R C : Nat) :
    (tab f R C).flatten =
      (List.product (List.range R) (List.range C)).map fun p => f p.1 p.2 := by
  unfold tab List.product
  rw [List.map_flatMap, List.flatMap_def]
  simp [List.map_map, Function.comp_def]

theorem liveCells_tab (f : Nat → Nat → Cell) (R C : Nat) :
    liveCells (tab f R C) =
      ((List.product (List.range R) (List.range C)).filter
        fun p => (f p.1 p.2).alive).length := by
  unfold liveCells
  rw [flatten_tab, List.filter_map, List.length_map]
  rfl

theorem count_positions (h : Nat → Nat → Bool) (R C : Nat) (l : List (Nat × Nat))
    (hnd : l.Nodup) (hin : ∀ p, p ∈ l → p.1 < R ∧ p.2 < C)
    (hl : ∀ i j, h i j = true ↔ (i, j) ∈ l) :
    ((List.product (List.range R) (List.range C)).filter fun p => h p.1 p.2).length
      = l.length := by
  apply List.Perm.length_eq
  have hnp : ((List.product (List.range R) (List.range C)).filter
      fun p => h p.1 p.2).Nodup :=
    (List.Nodup.product (List.nodup_range R) (List.nodup_range C)).filter _
  apply (List.perm_ext_iff_of_nodup hnp hnd).mpr
  intro p
  obtain ⟨i, j⟩ := p
  rw [List.mem_filter, List.pair_mem_product, List.mem_range, List.mem_range]
  constructor
  · intro hp
    exact (hl i j).mp hp.2
  · intro hp
    exact ⟨hin _ hp, (hl i j).mpr hp⟩

theorem length_two (coord : List Int) (h : coord.length = 2) : ∃ x y, coord = [x, y] := by
  match coord, h with
  | [x, y], _ => exact ⟨x, y, rfl⟩

theorem hit_iff_mem (l : List (List Int)) (offsetX offsetY : Int) (i j : Nat)
    (hpairs : ∀ coord, coord ∈ l → coord.length = 2) :
    hit l offsetX offsetY i j = true ↔ [(i : Int) - offsetX, (j : Int) - offsetY] ∈ l := by
  unfold hit
  rw [List.any_eq_true]
  constructor
  · rintro ⟨coord, hc, hd⟩
    obtain ⟨x, y, rfl⟩ := length_two coord (hpairs coord hc)
    rw [decide_eq_true_eq, index_pair_zero, index_pair_one] at hd
    obtain ⟨h0, h1⟩ := hd
    cases h0
    cases h1
    exact hc
  · intro hc
    exact ⟨_, hc, by rw [decide_eq_true_eq]; exact ⟨rfl, rfl⟩⟩

theorem hit_iff_place (l : List (List Int)) (offsetX offsetY : Int) (i j : Nat)
    (hok : coordsOk l offsetX offsetY = true) :
    hit l offsetX offsetY i j = true ↔ (i, j) ∈ l.map (place offsetX offsetY) := by
  unfold hit
  rw [List.any_eq_true, List.mem_map]
  constructor
  · rintro ⟨coord, hc, hd⟩
    rw [decide_eq_true_eq] at hd
    refine ⟨coord, hc, ?_⟩
    unfold place
    rw [hd.1, hd.2]
    simp
  · rintro ⟨coord, hc, hp⟩
    obtain ⟨x, y, h0, h1, hx, hy⟩ := coordsOk_spec l offsetX offsetY hok coord hc
    refine ⟨coord, hc, ?_⟩
    unfold place at hp
    rw [h0, h1] at hp
    simp only [Option.getD_some, Prod.mk.injEq] at hp
    rw [decide_eq_true_eq, h0, h1]
    constructor
    · congr 1; omega
    · congr 1; omega

theorem fits_spec (l : List (List Int)) (offsetX offsetY : Int)
    (h : fits l offsetX offsetY = true) :
    (∀ coord, coord ∈ l → coord.length = 2) ∧
      ∀ p, p ∈ l.map (place offsetX offsetY) → p.1 < row ∧ p.2 < columns := by
  unfold fits at h
  rw [List.all_eq_true] at h
  constructor
  · intro coord hc
    have h1 := h coord hc
    rw [Bool.and_eq_true, decide_eq_true_eq] at h1
    exact h1.1
  · intro p hp
    rw [List.mem_map] at hp
    obtain ⟨coord, hc, rfl⟩ := hp
    have h1 := h coord hc
    rw [Bool.and_eq_true, decide_eq_true_eq, decide_eq_true_eq] at h1
    exact h1.2

/-- The grid the pattern branch leaves, for a list of pairs that all land inside the
grid on distinct cells. -/
theorem seeded_grid_spec (env : Env) (l : List (List Int)) (offsetX offsetY : Int)
    (hok : coordsOk l offsetX offsetY = true) (hfit : fits l offsetX offsetY = true)
    (hnd : (l.map (place offsetX offsetY)).Nodup) :
    (∀ i j, (seeded (newCell env) l offsetX offsetY i j).alive = true ↔
      [(i : Int) - offsetX, (j : Int) - offsetY] ∈ l) ∧
    liveCells (tab (seeded (newCell env) l offsetX offsetY) row columns) = l.length := by
  obtain ⟨hpairs, hin⟩ := fits_spec l offsetX offsetY hfit
  constructor
  · intro i j
    rw [seeded_alive]
    exact hit_iff_mem l offsetX offsetY i j hpairs
  · rw [liveCells_tab]
    have e : (fun p : Nat × Nat => (seeded (newCell env) l offsetX offsetY p.1 p.2).alive) =
        fun p => hit l offsetX offsetY p.1 p.2 := by
      funext p
      exact seeded_alive env l offsetX offsetY p.1 p.2
    rw [e, count_positions (hit l offsetX offsetY) row columns _ hnd hin
      (fun i j => hit_iff_place l offsetX offsetY i j hok), List.length_map]

theorem boxed_spec (l : List (List Int)) (maxX maxY : Int) (h : boxed l maxX maxY = true) :
    ∀ coord, coord ∈ l → ∃ x y, coord = [x, y] ∧ x ≤ maxX ∧ y ≤ maxY := by
  intro coord hc
  unfold boxed at h
  rw [List.all_eq_true] at h
  have h1 := h coord hc
  split at h1
  · rename_i x y
    rw [decide_eq_true_eq] at h1
    exact ⟨x, y, rfl, h1.1, h1.2⟩
  · exact absurd h1 (by simp)

theorem patterns_cases (patternName : String) :
    patterns patternName = none ∨ patternName = "random" ∨ patternName = "blinker" ∨
      patternName = "glider" ∨ patternName = "lightweightspaceship" ∨
      patternName = "pulsar" := by
  unfold patterns
  split <;> simp

/-- The grid `makecells` returns for a pattern whose coordinates all land inside
the grid on distinct cells. -/
theorem makecells_pattern_spec (env : Env) (patternName : String) (l : List (List Int))
    (maxX maxY : Int) (hp : patterns patternName = some l) (hr : patternName ≠ "random")
    (hm : maxCoords l = some (maxX, maxY))
    (hok : coordsOk l (Int.tdiv ((row : Int) - maxX) 2)
      (Int.tdiv ((columns : Int) - maxY) 2) = true)
    (hfit : fits l (Int.tdiv ((row : Int) - maxX) 2)
      (Int.tdiv ((columns : Int) - maxY) 2) = true)
    (hnd : (l.map (place (Int.tdiv ((row : Int) - maxX) 2)
      (Int.tdiv ((columns : Int) - maxY) 2))).Nodup) :
    ∃ g, makecells env patternName = some g ∧
      g.length = 100 ∧ (∀ r, r ∈ g → r.length = 100) ∧
      (∀ i j, i < 100 → j < 100 → ∃ c, load g i j = some c ∧ c.aliveNext = c.alive ∧
        (c.alive = true ↔
          [(i : Int) - Int.tdiv ((row : Int) - maxX) 2,
           (j : Int) - Int.tdiv ((columns : Int) - maxY) 2] ∈ l)) ∧
      liveCells g = l.length := by
  obtain ⟨h1, h2⟩ := seeded_grid_spec env l _ _ hok hfit hnd
  refine ⟨_, makecells_pattern env patternName l maxX maxY hp hr hm hok,
    tab_length _ _ _, tab_row_length _ _ _, ?_, h2⟩
  intro i j hi hj
  refine ⟨_, load_tab _ row columns i j hi hj, ?_, h1 i j⟩
  rw [seeded_alive, seeded_aliveNext]

theorem makecells_builtin_tab (env : Env) (p : String)
    (hp : p = "blinker" ∨ p = "glider" ∨ p = "lightweightspaceship" ∨ p = "pulsar") :
    ∃ l offsetX offsetY,
      makecells env p = some (tab (seeded (newCell env) l offsetX offsetY) row columns) := by
  rcases hp with rfl | rfl | rfl | rfl
  · exact ⟨_, _, _, makecells_pattern env "blinker" ((patterns "blinker").getD []) 2 1
      (by rfl) (by decide) (by rfl) (by decide)⟩
  · exact ⟨_, _, _, makecells_pattern env "glider" ((patterns "glider").getD []) 2 2
      (by rfl) (by decide) (by rfl) (by decide)⟩
  · exact ⟨_, _, _, makecells_pattern env "lightweightspaceship"
      ((patterns "lightweightspaceship").getD []) 3 3 (by rfl) (by decide) (by rfl)
      (by decide)⟩
  · exact ⟨_, _, _, makecells_pattern env "pulsar" ((patterns "pulsar").getD []) 12 12
      (by decide!) (by decide) (by decide!) (by decide!)⟩


/-! ## Loops with an invariant -/

theorem foldlM_range_inv {σ : Type} (step : σ → Nat → Option σ) (P : Nat → σ → Prop) (n : Nat)
    (hstep : ∀ k s s', k < n → P k s → step s k = some s' → P (k + 1) s') :
    ∀ s0 s', P 0 s0 → (List.range n).foldlM step s0 = some s' → P n s' := by
  induction n with
  | zero =>
    intro s0 s' h0 h
    simp at h
    subst h
    exact h0
  | succ m ih =>
    intro s0 s' h0 h
    rw [List.range_succ, List.foldlM_append] at h
    simp only [Option.bind_eq_bind, Option.bind_eq_some] at h
    obtain ⟨s1, h1, h2⟩ := h
    have hm := ih (fun k s s' hk => hstep k s s' (Nat.lt_succ_of_lt hk)) s0 s1 h0 h1
    simp only [List.foldlM_cons, List.foldlM_nil, Option.bind_eq_bind, Option.bind_eq_some,
      Option.pure_def, Option.some.injEq] at h2
    obtain ⟨s2, h3, h4⟩ := h2
    subst h4
    exact hstep m s1 s2 (Nat.lt_succ_self m) hm h3

/-! ## `store` and `load` on arbitrary grids -/

theorem store_row (cells : Grid) (i j p : Nat) (c : Cell) :
    (store cells i j c)[p]? =
      if p = i then (cells[i]?).map (fun r => r.set j c) else cells[p]? := by
  unfold store
  cases hr : cells[i]? with
  | none =>
    simp only [Option.map_none']
    split
    · rename_i h; rw [h, hr]
    · rfl
  | some r =>
    simp only [Option.map_some']
    have hi : i < cells.length := (List.getElem?_eq_some.mp hr).1
    rw [List.getElem?_set]
    by_cases hp : p = i
    · subst hp
      simp [hi]
    · have hp2 : ¬ i = p := fun e => hp e.symm
      simp [hp, hp2]

theorem load_store (cells : Grid) (i j p q : Nat) (c : Cell) :
    load (store cells i j c) p q =
      if p = i ∧ q = j then (load cells i j).map (fun _ => c) else load cells p q := by
  unfold load
  rw [store_row]
  by_cases hp : p = i
  · subst hp
    cases hr : cells[p]? with
    | none => simp
    | some r =>
      simp only [if_true, Option.map_some', true_and]
      rw [List.getElem?_set]
      by_cases hq : q = j
      · subst hq
        simp only [if_true]
        by_cases hlt : q < r.length
        · simp [hlt, List.getElem?_eq_getElem hlt]
        · simp [hlt, List.getElem?_eq_none (Nat.le_of_not_lt hlt)]
      · have hq2 : ¬ j = q := fun e => hq e.symm
        simp [hq, hq2]
  · simp [hp]

theorem store_load_self (cells : Grid) (i j : Nat) (c : Cell) (h : load cells i j = some c) :
    store cells i j c = cells := by
  unfold load at h
  unfold store
  cases hr : cells[i]? with
  | none => rfl
  | some r =>
    rw [hr] at h
    simp only at h
    simp only
    have hj : j < r.length := (List.getElem?_eq_some.mp h).1
    have hi : i < cells.length := (List.getElem?_eq_some.mp hr).1
    have e1 : r.set j c = r := by
      apply List.ext_getElem?
      intro k
      rw [List.getElem?_set]
      by_cases hk : j = k
      · subst hk; simp [hj, h]
      · simp [hk]
    rw [e1]
    apply List.ext_getElem?
    intro k
    rw [List.getElem?_set]
    by_cases hk : i = k
    · subst hk; simp [hi, hr]
    · simp [hk]

theorem frameOf_store (cells : Grid) (i j : Nat) (c c0 : Cell) (h : load cells i j = some c0)
    (hd : c.drawable = c0.drawable) (hx : c.x = c0.x) (hy : c.y = c0.y) :
    frameOf (store cells i j c) = frameOf cells := by
  unfold frameOf
  apply List.ext_getElem?
  intro p
  rw [List.getElem?_map, List.getElem?_map, store_row]
  by_cases hp : p = i
  · subst hp
    unfold load at h
    cases hr : cells[p]? with
    | none => simp
    | some r =>
      rw [hr] at h
      simp only at h
      simp only [if_true, Option.map_some', Option.some.injEq]
      apply List.ext_getElem?
      intro q
      rw [List.getElem?_map, List.getElem?_map, List.getElem?_set]
      by_cases hq : j = q
      · subst hq
        have hj : j < r.length := (List.getElem?_eq_some.mp h).1
        simp [hj, h, hd, hx, hy]
      · simp [hq]
  · simp [hp]

theorem store_store (cells : Grid) (i j : Nat) (c d : Cell) :
    store (store cells i j c) i j d = store cells i j d := by
  apply List.ext_getElem?
  intro p
  simp only [store_row]
  by_cases hp : p = i
  · simp only [hp, if_true]
    cases hr : cells[i]? with
    | none => rfl
    | some r => simp [List.set_set]
  · simp [hp]

/-! ## What `checkState` and the update pass leave untouched -/

/-- What a successful `checkState` call does to the grid: it rewrites the cell it
was called on, committing its `aliveNext`, and nothing else. -/
theorem checkState_eq_store (cells cells' : Grid) (i j : Nat)
    (h : checkState cells i j = some cells') :
    ∃ c c1, load cells i j = some c ∧ cells' = store cells i j c1 ∧
      c1.alive = c.aliveNext ∧ c1.drawable = c.drawable ∧ c1.x = c.x ∧ c1.y = c.y := by
  unfold checkState at h
  simp only [Option.bind_eq_bind, Option.bind_eq_some, Option.pure_def] at h
  obtain ⟨c, hc, ⟨g, n⟩, hn, hs⟩ := h
  have hg := (liveNeighbours_frame _ _ _ _ hn).1
  simp only [Option.some.injEq] at hs
  refine ⟨c, applyRule { c with alive := c.aliveNext } n, hc, ?_, ?_, ?_, ?_, ?_⟩
  · rw [← hs, hg, store_store]
  · rw [applyRule_alive]
  · rw [applyRule_drawable]
  · rw [applyRule_x]
  · rw [applyRule_y]

theorem checkState_frameOf (g g' : Grid) (i j : Nat) (h : checkState g i j = some g') :
    frameOf g' = frameOf g := by
  obtain ⟨c, c1, hc, hg, _, hd, hx, hy⟩ := checkState_eq_store g g' i j h
  rw [hg]
  exact frameOf_store g i j c1 c hc hd hx hy

theorem checkState_other (g g' : Grid) (i j p q : Nat) (h : checkState g i j = some g')
    (hne : p ≠ i ∨ q ≠ j) : load g' p q = load g p q := by
  obtain ⟨c, c1, _, hg, _⟩ := checkState_eq_store g g' i j h
  rw [hg, load_store]
  have hn : ¬ (p = i ∧ q = j) := by
    intro hpq
    rcases hne with h1 | h1
    · exact h1 hpq.1
    · exact h1 hpq.2
  rw [if_neg hn]

theorem checkState_self (g g' : Grid) (i j : Nat) (c : Cell) (h : checkState g i j = some g')
    (hc : load g i j = some c) :
    ∃ c', load g' i j = some c' ∧ c'.alive = c.aliveNext := by
  obtain ⟨c0, c1, hc0, hg, ha, _⟩ := checkState_eq_store g g' i j h
  rw [hc] at hc0
  cases hc0
  refine ⟨c1, ?_, ha⟩
  rw [hg, load_store, if_pos ⟨rfl, rfl⟩, hc]
  rfl

theorem updateRow_frameOf (g g' : Grid) (x : Nat) (h : updateRow x g = some g') :
    frameOf g' = frameOf g := by
  unfold updateRow at h
  exact foldlM_range_inv (fun s y => checkState s x y) (fun _ s => frameOf s = frameOf g) _
    (fun k s s' _ hP hs => (checkState_frameOf s s' x k hs).trans hP) g g' rfl h

theorem updatePass_frameOf (g g' : Grid) (h : updatePass g = some g') :
    frameOf g' = frameOf g := by
  unfold updatePass at h
  exact foldlM_range_inv (fun s x => updateRow x s) (fun _ s => frameOf s = frameOf g) _
    (fun k s s' _ hP hs => (updateRow_frameOf s s' k hs).trans hP) g g' rfl h

theorem frameOf_length (g g' : Grid) (h : frameOf g' = frameOf g) : g'.length = g.length := by
  have h1 := congrArg List.length h
  unfold frameOf at h1
  simpa using h1

theorem frameOf_row (g g' : Grid) (h : frameOf g' = frameOf g) (p : Nat) :
    (g'[p]?).map List.length = (g[p]?).map List.length := by
  have h1 := congrArg (fun l => (l[p]?).map List.length) h
  unfold frameOf at h1
  simp only [List.getElem?_map, Option.map_map] at h1
  have e : (List.length ∘ fun r : List Cell => List.map (fun c => (c.drawable, c.x, c.y)) r)
      = List.length := by
    funext r
    simp
  rw [e] at h1
  exact h1

theorem frameOf_load (g g' : Grid) (h : frameOf g' = frameOf g) (p q : Nat) (c : Cell)
    (hc : load g p q = some c) :
    ∃ c', load g' p q = some c' ∧ c'.x = c.x ∧ c'.y = c.y ∧ c'.drawable = c.drawable := by
  have key : ∀ s : Grid, ((frameOf s)[p]?).bind (fun r => r[q]?) =
      (load s p q).map (fun c => (c.drawable, c.x, c.y)) := by
    intro s
    unfold frameOf load
    rw [List.getElem?_map]
    cases s[p]? with
    | none => rfl
    | some r => simp [List.getElem?_map]
  have h1 := key g'
  rw [h, key g, hc] at h1
  cases hc' : load g' p q with
  | none => rw [hc'] at h1; simp at h1
  | some c' =>
    rw [hc'] at h1
    simp only [Option.map_some', Option.some.injEq, Prod.mk.injEq] at h1
    exact ⟨c', rfl, h1.2.1.symm, h1.2.2.symm, h1.1.symm⟩

theorem updateRow_other (g g' : Grid) (x p q : Nat) (h : updateRow x g = some g')
    (hne : p ≠ x) : load g' p q = load g p q := by
  unfold updateRow at h
  exact foldlM_range_inv (fun s y => checkState s x y) (fun _ s => load s p q = load g p q) _
    (fun k s s' _ hP hs => (checkState_other s s' x k p q hs (Or.inl hne)).trans hP)
    g g' rfl h

theorem load_lt_getD (g : Grid) (p q : Nat) (c : Cell) (h : load g p q = some c) :
    p < g.length ∧ q < (g.getD p []).length := by
  unfold load at h
  cases hr : g[p]? with
  | none => rw [hr] at h; simp at h
  | some r =>
    rw [hr] at h
    simp only at h
    have hp : p < g.length := (List.getElem?_eq_some.mp hr).1
    refine ⟨hp, ?_⟩
    rw [List.getD_eq_getElem?_getD, hr]
    exact (List.getElem?_eq_some.mp h).1

theorem updateRow_self (g g' : Grid) (p q : Nat) (c : Cell) (h : updateRow p g = some g')
    (hc : load g p q = some c) :
    ∃ c', load g' p q = some c' ∧ c'.alive = c.aliveNext := by
  have hq := (load_lt_getD g p q c hc).2
  unfold updateRow at h
  have := foldlM_range_inv (fun s y => checkState s p y)
    (fun k s => (k ≤ q → load s p q = some c) ∧
      (q < k → ∃ c', load s p q = some c' ∧ c'.alive = c.aliveNext)) _
    (fun k s s' _ hP hs => by
      dsimp only at hP hs ⊢
      constructor
      · intro hk
        rw [checkState_other s s' p k p q hs (Or.inr (by omega))]
        exact hP.1 (by omega)
      · intro hk
        by_cases hkq : k = q
        · subst hkq
          exact checkState_self s s' p k c hs (hP.1 (Nat.le_refl k))
        · rw [checkState_other s s' p k p q hs (Or.inr (by omega))]
          exact hP.2 (by omega)) g g' ⟨fun _ => hc, fun hk => absurd hk (by omega)⟩ h
  exact this.2 hq

/-- After an update pass that returns, every cell's `alive` is the `aliveNext` it had
before the pass. -/
theorem updatePass_commits (g g' : Grid) (p q : Nat) (c : Cell) (h : updatePass g = some g')
    (hc : load g p q = some c) :
    ∃ c', load g' p q = some c' ∧ c'.alive = c.aliveNext := by
  have hp := (load_lt_getD g p q c hc).1
  unfold updatePass at h
  have := foldlM_range_inv (fun s x => updateRow x s)
    (fun k s => (k ≤ p → load s p q = some c) ∧
      (p < k → ∃ c', load s p q = some c' ∧ c'.alive = c.aliveNext)) _
    (fun k s s' _ hP hs => by
      dsimp only at hP hs ⊢
      constructor
      · intro hk
        rw [updateRow_other s s' k p q hs (by omega)]
        exact hP.1 (by omega)
      · intro hk
        by_cases hkp : k = p
        · subst hkp
          exact updateRow_self s s' k q c hs (hP.1 (Nat.le_refl k))
        · rw [updateRow_other s s' k p q hs (by omega)]
          exact hP.2 (by omega)) g g' ⟨fun _ => hc, fun hk => absurd hk (by omega)⟩ h
  exact this.2 hp

/-! ## Well-formed grids -/

theorem load_tab_some (f : Nat → Nat → Cell) (R C i j : Nat) (c : Cell)
    (h : load (tab f R C) i j = some c) : i < R ∧ j < C ∧ c = f i j := by
  obtain ⟨hi, hj⟩ := load_lt_getD _ i j c h
  rw [tab_length] at hi
  rw [List.getD_eq_getElem?_getD, tab_row f R C i hi] at hj
  simp only [Option.getD_some, List.length_map, List.length_range] at hj
  rw [load_tab f R C i j hi hj] at h
  exact ⟨hi, hj, (Option.some.inj h).symm⟩

theorem wellFormed_tab (f : Nat → Nat → Cell) (R C : Nat)
    (hxy : ∀ p, p < R → ∀ q, q < C → (f p q).x = (p : Int) ∧ (f p q).y = (q : Int)) :
    WellFormed R C (tab f R C) := by
  refine ⟨tab_length f R C, tab_row_length f R C, ?_⟩
  intro i j c hc
  obtain ⟨hi, hj, rfl⟩ := load_tab_some f R C i j c hc
  exact hxy i hi j hj

theorem wellFormed_load (R C : Nat) (cells : Grid) (h : WellFormed R C cells) (i j : Nat)
    (hi : i < R) (hj : j < C) : load cells i j = some (cellAt cells i j) := by
  obtain ⟨hlen, hrow, _⟩ := h
  have hi2 : i < cells.length := by omega
  have hr : cells[i]? = some cells[i] := List.getElem?_eq_getElem hi2
  have hl : (cells[i]).length = C := hrow _ (List.getElem_mem hi2)
  have hj2 : j < (cells[i]).length := by omega
  have hload : load cells i j = some ((cells[i])[j]) := by
    unfold load
    rw [hr]
    exact List.getElem?_eq_getElem hj2
  unfold cellAt
  rw [hload]
  rfl

theorem wellFormed_coords (R C : Nat) (cells : Grid) (h : WellFormed R C cells) (p q : Nat) :
    (cellAt cells p q).x = (p : Int) ∧ (cellAt cells p q).y = (q : Int) := by
  unfold cellAt
  cases hc : load cells p q with
  | none => exact ⟨rfl, rfl⟩
  | some c => exact h.2.2 p q c hc

theorem wellFormed_eq_tab (R C : Nat) (cells : Grid) (h : WellFormed R C cells) :
    cells = tab (cellAt cells) R C := by
  obtain ⟨hlen, hrow, _⟩ := h
  apply List.ext_getElem?
  intro i
  by_cases hi : i < R
  · rw [tab_row _ R C i hi]
    have hi2 : i < cells.length := by omega
    rw [List.getElem?_eq_getElem hi2]
    congr 1
    have hl : (cells[i]).length = C := hrow _ (List.getElem_mem hi2)
    apply List.ext_getElem?
    intro j
    by_cases hj : j < C
    · rw [List.getElem?_map, List.getElem?_range hj]
      have hj2 : j < (cells[i]).length := by omega
      have hload : load cells i j = some ((cells[i])[j]) := by
        unfold load
        rw [List.getElem?_eq_getElem hi2]
        exact List.getElem?_eq_getElem hj2
      rw [List.getElem?_eq_getElem hj2]
      simp only [Option.map_some']
      unfold cellAt
      rw [hload]
      rfl
    · rw [List.getElem?_eq_none (by omega), List.getElem?_eq_none (by simp; omega)]
  · rw [List.getElem?_eq_none (by omega), List.getElem?_eq_none (by rw [tab_length]; omega)]

theorem load_cellAt (cells : Grid) (i j : Nat) (c : Cell) (h : load cells i j = some c) :
    cellAt cells i j = c := by
  unfold cellAt
  rw [h]
  rfl

theorem updatePass_wellFormed (R C : Nat) (cells : Grid) (h : WellFormed R C cells)
    (hC : 2 ≤ C) :
    updatePass cells = some (tab (stepCell (cellAt cells) R C) R C) ∧
      WellFormed R C (tab (stepCell (cellAt cells) R C) R C) := by
  constructor
  · conv_lhs => rw [wellFormed_eq_tab R C cells h]
    exact updatePass_tab _ R C hC (fun p _ q _ => wellFormed_coords R C cells h p q)
  · apply wellFormed_tab
    intro p _ q _
    rw [stepCell_x, stepCell_y]
    exact wellFormed_coords R C cells h p q

/-! ## What `draw` renders after a pass -/

theorem draw_eq (g : Grid) :
    draw g = (((g.map fun r => r.map fun c => (c.alive, c.drawable)).flatten.filter
      fun p => p.1).map fun p => p.2) := by
  unfold draw
  rw [← List.map_flatten, List.filter_map, List.map_map]
  rfl

theorem committed_eq (g g' : Grid) (hf : frameOf g' = frameOf g)
    (ha : ∀ p q c, load g p q = some c → ∃ c', load g' p q = some c' ∧ c'.alive = c.aliveNext) :
    (g'.map fun r => r.map fun c => (c.alive, c.drawable)) =
      g.map fun r => r.map fun c => (c.aliveNext, c.drawable) := by
  apply List.ext_getElem?
  intro p
  rw [List.getElem?_map, List.getElem?_map]
  have hrow := frameOf_row g g' hf p
  cases hr : g[p]? with
  | none =>
    rw [hr] at hrow
    cases hr' : g'[p]? with
    | none => rfl
    | some r' => rw [hr'] at hrow; simp at hrow
  | some r =>
    rw [hr] at hrow
    cases hr' : g'[p]? with
    | none => rw [hr'] at hrow; simp at hrow
    | some r' =>
      rw [hr'] at hrow
      simp only [Option.map_some', Option.some.injEq] at hrow ⊢
      apply List.ext_getElem?
      intro q
      rw [List.getElem?_map, List.getElem?_map]
      cases hc : r[q]? with
      | none =>
        have hq : r.length ≤ q := by
          by_contra hlt
          rw [List.getElem?_eq_getElem (by omega)] at hc
          exact absurd hc (by simp)
        rw [List.getElem?_eq_none (by omega)]
        rfl
      | some c =>
        have hl : load g p q = some c := by
          unfold load
          rw [hr]
          exact hc
        obtain ⟨c', hc', hal⟩ := ha p q c hl
        obtain ⟨c2, hc2, _, _, hd⟩ := frameOf_load g g' hf p q c hl
        rw [hc'] at hc2
        cases hc2
        have hc3 : r'[q]? = some c' := by
          unfold load at hc'
          rw [hr'] at hc'
          exact hc'
        rw [hc3]
        simp [hal, hd]

/-! ## Visiting the cells in another order -/

theorem checkState_done (f : Nat → Nat → Cell) (R C i j : Nat) (visited : List (Nat × Nat))
    (hC : 2 ≤ C) (hi : i < R) (hj : j < C) (hv : (i, j) ∉ visited)
    (hxy : (f i j).x = (i : Int) ∧ (f i j).y = (j : Int))
    (hs : ∀ p q, (f p q).aliveNext = (f p q).alive) :
    checkState (tab (done f (stepCell f R C) visited) R C) i j =
      some (tab (done f (stepCell f R C) ((i, j) :: visited)) R C) := by
  have hself : done f (stepCell f R C) visited i j = f i j := by
    unfold done
    rw [if_neg hv]
  rw [checkState_tab _ R C i j hC hi hj (by rw [hself]; exact hxy.1) (by rw [hself]; exact hxy.2)]
  rw [hself]
  have hal : (fun p q => (upd (done f (stepCell f R C) visited) i j
      { f i j with alive := (f i j).aliveNext } p q).alive) = fun p q => (f p q).alive := by
    funext p q
    unfold upd done
    by_cases h1 : p = i ∧ q = j
    · rw [if_pos h1, h1.1, h1.2]
      exact hs i j
    · rw [if_neg h1]
      split
      · rw [stepCell_alive, hs]
      · rfl
  rw [hal]
  congr 2
  funext p q
  unfold upd done
  by_cases h1 : p = i ∧ q = j
  · have h2 : (p, q) ∈ (i, j) :: visited := by rw [h1.1, h1.2]; exact List.mem_cons_self _ _
    rw [if_pos h1, if_pos h2, h1.1, h1.2]
    unfold stepCell
    rw [seen_settled f i j hs]
  · rw [if_neg h1]
    have h3 : (p, q) ∈ (i, j) :: visited ↔ (p, q) ∈ visited := by
      rw [List.mem_cons]
      constructor
      · rintro (h | h)
        · exact absurd (by cases h; exact ⟨rfl, rfl⟩) h1
        · exact h
      · exact Or.inr
    by_cases h4 : (p, q) ∈ visited
    · rw [if_pos h4, if_pos (h3.mpr h4)]
    · rw [if_neg h4, if_neg (fun h => h4 (h3.mp h))]

theorem visit_done (f : Nat → Nat → Cell) (R C : Nat) (hC : 2 ≤ C)
    (hxy : ∀ p q, (f p q).x = (p : Int) ∧ (f p q).y = (q : Int))
    (hs : ∀ p q, (f p q).aliveNext = (f p q).alive) (order : List (Nat × Nat)) :
    ∀ visited : List (Nat × Nat), order.Nodup →
      (∀ a, a ∈ order → a ∉ visited ∧ a.1 < R ∧ a.2 < C) →
      ∃ final : List (Nat × Nat), (∀ a, a ∈ final ↔ a ∈ order ∨ a ∈ visited) ∧
        visit order (tab (done f (stepCell f R C) visited) R C) =
          some (tab (done f (stepCell f R C) final) R C) := by
  induction order with
  | nil =>
    intro visited _ _
    exact ⟨visited, fun a => by simp, rfl⟩
  | cons a rest ih =>
    intro visited hnd hall
    obtain ⟨i, j⟩ := a
    obtain ⟨hv, hi, hj⟩ := hall (i, j) (List.mem_cons_self _ _)
    have hnd2 := List.nodup_cons.mp hnd
    obtain ⟨final, hfin, hvis⟩ := ih ((i, j) :: visited) hnd2.2 (fun b hb => by
      obtain ⟨hb1, hb2, hb3⟩ := hall b (List.mem_cons_of_mem _ hb)
      refine ⟨?_, hb2, hb3⟩
      intro hmem
      rcases List.mem_cons.mp hmem with h | h
      · rw [h] at hb
        exact hnd2.1 hb
      · exact hb1 h)
    refine ⟨final, ?_, ?_⟩
    · intro b
      rw [hfin b, List.mem_cons, List.mem_cons]
      constructor
      · rintro (h | h | h)
        · exact Or.inl (Or.inr h)
        · exact Or.inl (Or.inl h)
        · exact Or.inr h
      · rintro ((h | h) | h)
        · exact Or.inr (Or.inl h)
        · exact Or.inl h
        · exact Or.inr (Or.inr h)
    · unfold visit at hvis ⊢
      rw [List.foldlM_cons]
      simp only [Option.bind_eq_bind]
      rw [checkState_done f R C i j visited hC hi hj hv (hxy i j) hs]
      exact hvis

theorem first_pass_tab (f : Nat → Nat → Cell) (R C : Nat) (hC : 2 ≤ C)
    (hxy : ∀ p q, (f p q).x = (p : Int) ∧ (f p q).y = (q : Int))
    (hset : ∀ p q, (f p q).aliveNext = (f p q).alive) :
    ∃ cells', updatePass (tab f R C) = some cells' ∧
      (∀ i j c, load (tab f R C) i j = some c → ∃ n c',
        liveNeighbours (tab f R C) c = some (tab f R C, n) ∧ load cells' i j = some c' ∧
        c'.alive = c.alive ∧
        c'.aliveNext = if c.alive then decide (n = 2 ∨ n = 3) else decide (n = 3)) ∧
      (∀ order : List (Nat × Nat), order.Nodup →
        (∀ i j, (i, j) ∈ order ↔ i < R ∧ j < C) → visit order (tab f R C) = some cells') := by
  refine ⟨_, updatePass_tab f R C hC (fun p _ q _ => hxy p q), ?_, ?_⟩
  · intro i j c hc
    obtain ⟨hi, hj, rfl⟩ := load_tab_some f R C i j c hc
    refine ⟨nbCount (fun p q => (f p q).alive) R C i j, _,
      liveNeighbours_tab f R C i j _ hC hi hj (hxy i j).1 (hxy i j).2,
      load_tab _ R C i j hi hj, ?_, ?_⟩
    · rw [stepCell_alive, hset]
    · exact stepCell_settled f R C i j hset
  · intro order hnd hall
    obtain ⟨final, hfin, hvis⟩ := visit_done f R C hC hxy hset order [] hnd
      (fun a ha => ⟨by simp, (hall a.1 a.2).mp ha⟩)
    have e0 : tab (done f (stepCell f R C) []) R C = tab f R C := by
      apply tab_congr
      intro p _ q _
      unfold done
      simp
    have e1 : tab (done f (stepCell f R C) final) R C = tab (stepCell f R C) R C := by
      apply tab_congr
      intro p hp q hq
      unfold done
      rw [if_pos ((hfin (p, q)).mpr (Or.inl ((hall p q).mpr ⟨hp, hq⟩)))]
    rw [e0, e1] at hvis
    exact hvis

/-! ## The toroidal count away from the last column -/

theorem wrapX_emod (R : Nat) (z : Int) (hR : 0 < R) (h0 : -1 ≤ z) (h1 : z ≤ (R : Int)) :
    wrapX R z = (z % (R : Int)).toNat := by
  unfold wrapX
  by_cases hz : z = (R : Int)
  · rw [if_pos hz, hz, Int.emod_self]
  · rw [if_neg hz]
    by_cases hm : z = -1
    · rw [if_pos hm, hm]
      have e : (-1 : Int) % (R : Int) = (R : Int) - 1 := by
        rw [← Int.add_emod_self]
        exact Int.emod_eq_of_lt (by omega) (by omega)
      rw [e]
    · rw [if_neg hm, Int.emod_eq_of_lt (by omega) (by omega)]

theorem wrapY_emod (C : Nat) (z : Int) (hC : 0 < C) (h0 : -1 ≤ z) (h1 : z < (C : Int)) :
    wrapY C z = (z % (C : Int)).toNat := by
  unfold wrapY
  have hz : ¬ z = (C : Int) := by omega
  rw [if_neg hz]
  by_cases hm : z = -1
  · rw [if_pos hm, hm]
    have e : (-1 : Int) % (C : Int) = (C : Int) - 1 := by
      rw [← Int.add_emod_self]
      exact Int.emod_eq_of_lt (by omega) (by omega)
    rw [e]
  · rw [if_neg hm, Int.emod_eq_of_lt (by omega) (by omega)]

theorem bump_emod (a : Nat → Nat → Bool) (R C : Nat) (i j : Nat) (dx dy : Int) (hi : i < R)
    (hj : j + 2 ≤ C) (hx0 : -1 ≤ dx) (hx1 : dx ≤ 1) (hy0 : -1 ≤ dy) (hy1 : dy ≤ 1) :
    bump a R C ((i : Int) + dx) ((j : Int) + dy) =
      if a ((((i : Int) + dx) % (R : Int)).toNat) ((((j : Int) + dy) % (C : Int)).toNat)
      then 1 else 0 := by
  unfold bump
  rw [wrapX_emod R _ (by omega) (by omega) (by omega),
    wrapY_emod C _ (by omega) (by omega) (by omega)]

/-- Away from the last column the count of `liveNeighbours` is the toroidal one. -/
theorem nbCount_toroidal (f : Nat → Nat → Cell) (R C i j : Nat) (hi : i < R)
    (hj : j + 2 ≤ C) :
    nbCount (fun p q => (f p q).alive) R C i j =
      ((toroidalCount (tab f R C) R C i j : Nat) : Int) := by
  rw [toroidalCount_tab f R C i j (by omega) (by omega)]
  have e1 : ((i : Int) - 1) = (i : Int) + (-1) := by omega
  have e2 : ((j : Int) - 1) = (j : Int) + (-1) := by omega
  have e3 : nbCount (fun p q => (f p q).alive) R C i j =
      0 + bump (fun p q => (f p q).alive) R C ((i : Int) + (-1)) ((j : Int) + 0)
        + bump (fun p q => (f p q).alive) R C ((i : Int) + 1) ((j : Int) + 0)
        + bump (fun p q => (f p q).alive) R C ((i : Int) + 0) ((j : Int) + 1)
        + bump (fun p q => (f p q).alive) R C ((i : Int) + 0) ((j : Int) + (-1))
        + bump (fun p q => (f p q).alive) R C ((i : Int) + (-1)) ((j : Int) + 1)
        + bump (fun p q => (f p q).alive) R C ((i : Int) + 1) ((j : Int) + 1)
        + bump (fun p q => (f p q).alive) R C ((i : Int) + (-1)) ((j : Int) + (-1))
        + bump (fun p q => (f p q).alive) R C ((i : Int) + 1) ((j : Int) + (-1)) := by
    unfold nbCount
    rw [e1, e2, Int.add_zero, Int.add_zero]
  rw [e3]
  rw [bump_emod _ R C i j _ _ hi hj (by omega) (by omega) (by omega) (by omega),
    bump_emod _ R C i j _ _ hi hj (by omega) (by omega) (by omega) (by omega),
    bump_emod _ R C i j _ _ hi hj (by omega) (by omega) (by omega) (by omega),
    bump_emod _ R C i j _ _ hi hj (by omega) (by omega) (by omega) (by omega),
    bump_emod _ R C i j _ _ hi hj (by omega) (by omega) (by omega) (by omega),
    bump_emod _ R C i j _ _ hi hj (by omega) (by omega) (by omega) (by omega),
    bump_emod _ R C i j _ _ hi hj (by omega) (by omega) (by omega) (by omega),
    bump_emod _ R C i j _ _ hi hj (by omega) (by omega) (by omega) (by omega)]
  unfold offsets
  rw [← List.countP_eq_length_filter]
  simp only [List.countP_cons, List.countP_nil]
  push_cast
  ring

/-! ## The values of the wrap-around -/

theorem wrapX_top (R : Nat) : wrapX R (R : Int) = 0 := by
  unfold wrapX
  simp

theorem wrapX_neg (R : Nat) (hR : 1 ≤ R) : wrapX R (-1) = R - 1 := by
  unfold wrapX
  have h : ¬ ((-1 : Int) = (R : Int)) := by omega
  rw [if_neg h, if_pos rfl]
  omega

theorem wrapX_mid (R : Nat) (x : Nat) (hx : x < R) : wrapX R (x : Int) = x := by
  unfold wrapX
  have h1 : ¬ ((x : Int) = (R : Int)) := by omega
  have h2 : ¬ ((x : Int) = -1) := by omega
  rw [if_neg h1, if_neg h2]
  simp

theorem wrapY_top (C : Nat) : wrapY C (C : Int) = 1 := by
  unfold wrapY
  simp

theorem wrapY_neg (C : Nat) (hC : 1 ≤ C) : wrapY C (-1) = C - 1 := by
  unfold wrapY
  have h : ¬ ((-1 : Int) = (C : Int)) := by omega
  rw [if_neg h, if_pos rfl]
  omega

theorem wrapY_mid (C : Nat) (y : Nat) (hy : y < C) : wrapY C (y : Int) = y := by
  unfold wrapY
  have h1 : ¬ ((y : Int) = (C : Int)) := by omega
  have h2 : ¬ ((y : Int) = -1) := by omega
  rw [if_neg h1, if_neg h2]
  simp

theorem bump_lit (a : Nat → Nat → Bool) (R C : Nat) (p q : Int) :
    bump a R C p q = lit (a (wrapX R p) (wrapY C q)) := rfl

theorem nbCount_last_column (a : Nat → Nat → Bool) (R C i : Nat) (hC : 2 ≤ C) :
    nbCount a R C (i : Int) ((C - 1 : Nat) : Int) =
      0 + lit (a (wrapX R ((i : Int) - 1)) (C - 1)) + lit (a (wrapX R ((i : Int) + 1)) (C - 1))
        + lit (a (wrapX R (i : Int)) 1) + lit (a (wrapX R (i : Int)) (C - 2))
        + lit (a (wrapX R ((i : Int) - 1)) 1) + lit (a (wrapX R ((i : Int) + 1)) 1)
        + lit (a (wrapX R ((i : Int) - 1)) (C - 2))
        + lit (a (wrapX R ((i : Int) + 1)) (C - 2)) := by
  have e1 : (((C - 1 : Nat) : Int) + 1) = (C : Int) := by omega
  have e2 : (((C - 1 : Nat) : Int) - 1) = ((C - 2 : Nat) : Int) := by omega
  unfold nbCount
  simp only [bump_lit, e1, e2, wrapY_top, wrapY_mid C (C - 1) (by omega),
    wrapY_mid C (C - 2) (by omega)]

theorem nbCount_column_zero (a b : Nat → Nat → Bool) (R C i : Nat) (hC : 3 ≤ C)
    (h : ∀ p q, q ≠ 0 → b p q = a p q) :
    nbCount b R C (i : Int) ((C - 1 : Nat) : Int) =
      nbCount a R C (i : Int) ((C - 1 : Nat) : Int) := by
  rw [nbCount_last_column a R C i (by omega), nbCount_last_column b R C i (by omega)]
  rw [h _ (C - 1) (by omega), h _ (C - 1) (by omega), h _ 1 (by omega), h _ (C - 2) (by omega),
    h _ 1 (by omega), h _ 1 (by omega), h _ (C - 2) (by omega), h _ (C - 2) (by omega)]

/-! ## A single live cell -/

theorem sum_le_one (x y xm x0 xp ym y0 yp : Nat) (b1 b2 b3 b4 b5 b6 b7 b8 : Int)
    (hx1 : xm ≠ x0) (hx2 : xp ≠ x0) (hx3 : xm ≠ xp) (hy1 : ym ≠ y0) (hy2 : yp ≠ y0)
    (hy3 : ym ≠ yp)
    (h1 : b1 = 0 ∨ (b1 = 1 ∧ xm = x ∧ y0 = y))
    (h2 : b2 = 0 ∨ (b2 = 1 ∧ xp = x ∧ y0 = y))
    (h3 : b3 = 0 ∨ (b3 = 1 ∧ x0 = x ∧ yp = y))
    (h4 : b4 = 0 ∨ (b4 = 1 ∧ x0 = x ∧ ym = y))
    (h5 : b5 = 0 ∨ (b5 = 1 ∧ xm = x ∧ yp = y))
    (h6 : b6 = 0 ∨ (b6 = 1 ∧ xp = x ∧ yp = y))
    (h7 : b7 = 0 ∨ (b7 = 1 ∧ xm = x ∧ ym = y))
    (h8 : b8 = 0 ∨ (b8 = 1 ∧ xp = x ∧ ym = y)) :
    0 ≤ 0 + b1 + b2 + b3 + b4 + b5 + b6 + b7 + b8 ∧
      0 + b1 + b2 + b3 + b4 + b5 + b6 + b7 + b8 ≤ 1 := by
  omega

theorem bump_cases (a : Nat → Nat → Bool) (R C x y : Nat) (p q : Int)
    (ha : ∀ u v, a u v = true → u = x ∧ v = y) :
    bump a R C p q = 0 ∨ (bump a R C p q = 1 ∧ wrapX R p = x ∧ wrapY C q = y) := by
  unfold bump
  by_cases h : a (wrapX R p) (wrapY C q) = true
  · rw [if_pos h]
    exact Or.inr ⟨rfl, ha _ _ h⟩
  · rw [if_neg h]
    exact Or.inl rfl

theorem wrapX_pred (R i : Nat) (hi : i < R) :
    wrapX R ((i : Int) - 1) = if i = 0 then R - 1 else i - 1 := by
  by_cases h : i = 0
  · subst h
    rw [if_pos rfl]
    exact wrapX_neg R (by omega)
  · rw [if_neg h]
    have e : ((i : Int) - 1) = ((i - 1 : Nat) : Int) := by omega
    rw [e]
    exact wrapX_mid R (i - 1) (by omega)

theorem wrapX_succ (R i : Nat) (hi : i < R) :
    wrapX R ((i : Int) + 1) = if i + 1 = R then 0 else i + 1 := by
  have e : ((i : Int) + 1) = ((i + 1 : Nat) : Int) := by omega
  rw [e]
  by_cases h : i + 1 = R
  · rw [if_pos h, h]
    exact wrapX_top R
  · rw [if_neg h]
    exact wrapX_mid R (i + 1) (by omega)

theorem wrapY_pred (C j : Nat) (hj : j < C) :
    wrapY C ((j : Int) - 1) = if j = 0 then C - 1 else j - 1 := by
  by_cases h : j = 0
  · subst h
    rw [if_pos rfl]
    exact wrapY_neg C (by omega)
  · rw [if_neg h]
    have e : ((j : Int) - 1) = ((j - 1 : Nat) : Int) := by omega
    rw [e]
    exact wrapY_mid C (j - 1) (by omega)

theorem wrapY_succ (C j : Nat) (hj : j < C) :
    wrapY C ((j : Int) + 1) = if j + 1 = C then 1 else j + 1 := by
  have e : ((j : Int) + 1) = ((j + 1 : Nat) : Int) := by omega
  rw [e]
  by_cases h : j + 1 = C
  · rw [if_pos h, h]
    exact wrapY_top C
  · rw [if_neg h]
    exact wrapY_mid C (j + 1) (by omega)

theorem wrapX_distinct (R i : Nat) (hR : 3 ≤ R) (hi : i < R) :
    wrapX R ((i : Int) - 1) ≠ wrapX R (i : Int) ∧ wrapX R ((i : Int) + 1) ≠ wrapX R (i : Int) ∧
      wrapX R ((i : Int) - 1) ≠ wrapX R ((i : Int) + 1) := by
  rw [wrapX_pred R i hi, wrapX_succ R i hi, wrapX_mid R i hi]
  refine ⟨?_, ?_, ?_⟩ <;> split_ifs <;> omega

theorem wrapY_distinct (C j : Nat) (hC : 4 ≤ C) (hj : j < C) :
    wrapY C ((j : Int) - 1) ≠ wrapY C (j : Int) ∧ wrapY C ((j : Int) + 1) ≠ wrapY C (j : Int) ∧
      wrapY C ((j : Int) - 1) ≠ wrapY C ((j : Int) + 1) := by
  rw [wrapY_pred C j hj, wrapY_succ C j hj, wrapY_mid C j hj]
  refine ⟨?_, ?_, ?_⟩ <;> split_ifs <;> omega

/-- When at most the cell `(x, y)` is alive, no cell has more than one live
neighbour: the eight cells `liveNeighbours` reads are distinct. -/
theorem nbCount_single (a : Nat → Nat → Bool) (R C x y i j : Nat) (hR : 3 ≤ R) (hC : 4 ≤ C)
    (hi : i < R) (hj : j < C) (ha : ∀ u v, a u v = true → u = x ∧ v = y) :
    0 ≤ nbCount a R C i j ∧ nbCount a R C i j ≤ 1 := by
  obtain ⟨hx1, hx2, hx3⟩ := wrapX_distinct R i hR hi
  obtain ⟨hy1, hy2, hy3⟩ := wrapY_distinct C j hC hj
  unfold nbCount
  exact sum_le_one x y _ _ _ _ _ _ _ _ _ _ _ _ _ _ hx1 hx2 hx3 hy1 hy2 hy3
    (bump_cases a R C x y _ _ ha) (bump_cases a R C x y _ _ ha)
    (bump_cases a R C x y _ _ ha) (bump_cases a R C x y _ _ ha)
    (bump_cases a R C x y _ _ ha) (bump_cases a R C x y _ _ ha)
    (bump_cases a R C x y _ _ ha) (bump_cases a R C x y _ _ ha)

theorem stepCell_aliveNext (f : Nat → Nat → Cell) (R C i j : Nat) :
    (stepCell f R C i j).aliveNext =
      if (f i j).aliveNext then
        decide (nbCount (seen f i j) R C i j = 2 ∨ nbCount (seen f i j) R C i j = 3)
      else decide (nbCount (seen f i j) R C i j = 3) := by
  unfold stepCell
  rw [applyRule_aliveNext _ _ rfl]

theorem stepCell_single (f : Nat → Nat → Cell) (R C x y i j : Nat) (hR : 3 ≤ R) (hC : 4 ≤ C)
    (hi : i < R) (hj : j < C)
    (ha : ∀ u v, (f u v).alive = true → u = x ∧ v = y)
    (hn : ∀ u v, (f u v).aliveNext = true → u = x ∧ v = y) :
    (stepCell f R C i j).aliveNext = false := by
  have hseen : ∀ u v, seen f i j u v = true → u = x ∧ v = y := by
    intro u v h
    unfold seen at h
    split at h
    · exact hn u v h
    · exact ha u v h
  obtain ⟨h0, h1⟩ := nbCount_single (seen f i j) R C x y i j hR hC hi hj hseen
  rw [stepCell_aliveNext]
  have e2 : ¬ (nbCount (seen f i j) R C i j = 2 ∨ nbCount (seen f i j) R C i j = 3) := by omega
  have e3 : ¬ (nbCount (seen f i j) R C i j = 3) := by omega
  split
  · exact decide_eq_false e2
  · exact decide_eq_false e3

theorem cellAt_tab (f : Nat → Nat → Cell) (R C u v : Nat) :
    cellAt (tab f R C) u v =
      if u < R ∧ v < C then f u v
      else { drawable := 0, alive := false, aliveNext := false, x := u, y := v } := by
  by_cases huv : u < R ∧ v < C
  · rw [if_pos huv]
    exact load_cellAt _ u v _ (load_tab f R C u v huv.1 huv.2)
  · rw [if_neg huv]
    unfold cellAt
    cases hc : load (tab f R C) u v with
    | none => rfl
    | some c =>
      obtain ⟨h1, h2, _⟩ := load_tab_some f R C u v c hc
      exact absurd ⟨h1, h2⟩ huv

/-! ## Still lifes -/

theorem commit_settled (c : Cell) (h : c.aliveNext = c.alive) :
    ({ c with alive := c.aliveNext } : Cell) = c := by
  cases c
  simp only at h
  simp [h]

theorem applyRule_fixed (c : Cell) (n : Int) (hs : c.aliveNext = c.alive)
    (h1 : c.alive = true → n = 2 ∨ n = 3) (h2 : c.alive = false → n ≠ 3) :
    applyRule c n = c := by
  cases c with
  | mk d a an x y =>
    simp only at hs h1 h2
    subst hs
    unfold applyRule
    cases an with
    | true =>
      have h := h1 rfl
      have e1 : ¬ n < 2 := by omega
      have e3 : ¬ n > 3 := by omega
      simp [h, e1, e3]
    | false =>
      have h := h2 rfl
      simp [h]

theorem checkState_fixed (cells : Grid) (i j : Nat) (c : Cell) (n : Int)
    (hc : load cells i j = some c) (hs : c.aliveNext = c.alive)
    (hn : liveNeighbours cells c = some (cells, n))
    (h1 : c.alive = true → n = 2 ∨ n = 3) (h2 : c.alive = false → n ≠ 3) :
    checkState cells i j = some cells := by
  unfold checkState
  simp only [hc, Option.bind_eq_bind, Option.some_bind, Option.pure_def]
  rw [commit_settled c hs, store_load_self cells i j c hc, hn]
  simp only [Option.some_bind]
  rw [applyRule_fixed c n hs h1 h2, store_load_self cells i j c hc]

theorem load_of_lt_getD (cells : Grid) (x y : Nat) (h : y < (cells.getD x []).length) :
    ∃ c, load cells x y = some c := by
  rw [List.getD_eq_getElem?_getD] at h
  unfold load
  cases hr : cells[x]? with
  | none => rw [hr] at h; simp at h
  | some r =>
    rw [hr] at h
    simp only [Option.getD_some] at h
    exact ⟨r[y], List.getElem?_eq_getElem h⟩

theorem updatePass_fixed (cells : Grid)
    (h : ∀ i j c, load cells i j = some c → c.aliveNext = c.alive ∧
      ∃ n, liveNeighbours cells c = some (cells, n) ∧
        (c.alive = true → n = 2 ∨ n = 3) ∧ (c.alive = false → n ≠ 3)) :
    updatePass cells = some cells := by
  have hrow : ∀ x, updateRow x cells = some cells := by
    intro x
    unfold updateRow
    exact foldlM_range_chain (fun g y => checkState g x y) (fun _ => cells) _ (fun y hy => by
      obtain ⟨c, hc⟩ := load_of_lt_getD cells x y hy
      obtain ⟨hs, n, hn, h1, h2⟩ := h x y c hc
      exact checkState_fixed cells x y c n hc hs hn h1 h2)
  unfold updatePass
  exact foldlM_range_chain (fun g x => updateRow x g) (fun _ => cells) _ (fun x _ => hrow x)

theorem randomCell_block : (fun p q => (randomCell blockEnv p q).alive) = blockAlive := by
  funext p q
  unfold randomCell blockEnv blockAlive
  simp only
  by_cases h : (p = 49 ∨ p = 50) ∧ (q = 49 ∨ q = 50)
  · simp only [h, and_self, if_true, decide_True, decide_eq_true_eq]
    norm_num
  · simp only [h, if_false, decide_False, decide_eq_false_iff_not]
    norm_num

theorem bump_block (p q : Int) (h : p < 49 ∨ 50 < p ∨ q < 49 ∨ 50 < q) :
    bump blockAlive row columns p q = 0 := by
  unfold bump
  rw [if_neg]
  unfold blockAlive wrapX wrapY row columns
  simp only [decide_eq_true_eq]
  split_ifs <;> omega

theorem nbCount_block_far (i j : Nat) (h : i ≤ 47 ∨ 52 ≤ i ∨ j ≤ 47 ∨ 52 ≤ j) :
    nbCount blockAlive row columns i j = 0 := by
  unfold nbCount
  rw [bump_block _ _ (by omega), bump_block _ _ (by omega), bump_block _ _ (by omega),
    bump_block _ _ (by omega), bump_block _ _ (by omega), bump_block _ _ (by omega),
    bump_block _ _ (by omega), bump_block _ _ (by omega)]
  rfl

theorem block_fixed (i j : Nat) (hi : i < 100) (hj : j < 100) :
    (blockAlive i j = true → nbCount blockAlive row columns i j = 2 ∨
      nbCount blockAlive row columns i j = 3) ∧
    (blockAlive i j = false → nbCount blockAlive row columns i j ≠ 3) := by
  by_cases hfar : i ≤ 47 ∨ 52 ≤ i ∨ j ≤ 47 ∨ 52 ≤ j
  · rw [nbCount_block_far i j hfar]
    have hd : blockAlive i j = false := by
      unfold blockAlive
      rw [decide_eq_false_iff_not]
      omega
    rw [hd]
    exact ⟨fun h => absurd h (by decide), fun _ => by decide⟩
  · have h1 : 48 ≤ i := by omega
    have h2 : i ≤ 51 := by omega
    have h3 : 48 ≤ j := by omega
    have h4 : j ≤ 51 := by omega
    clear hfar hi hj
    interval_cases i <;> interval_cases j <;> decide

theorem blockGrid_still (i j : Nat) (c : Cell) (hc : load blockGrid i j = some c) :
    c.aliveNext = c.alive ∧
      ∃ n, liveNeighbours blockGrid c = some (blockGrid, n) ∧
        (c.alive = true → n = 2 ∨ n = 3) ∧ (c.alive = false → n ≠ 3) := by
  unfold blockGrid at hc ⊢
  obtain ⟨hi, hj, rfl⟩ := load_tab_some _ row columns i j c hc
  refine ⟨rfl, _, liveNeighbours_tab _ row columns i j _ columns_ge_two hi hj rfl rfl, ?_⟩
  rw [randomCell_block]
  have e : (randomCell blockEnv i j).alive = blockAlive i j :=
    congrFun (congrFun randomCell_block i) j
  rw [e]
  exact block_fixed i j hi hj

/-! ## The flag loop -/

theorem setFps_valid (sc : Strconv) (v : String) (cfg : Config) (h : cfg.valid) :
    (setFps sc v cfg).valid := by
  unfold setFps
  split
  · split
    · rename_i hpos
      exact ⟨hpos, h.2⟩
    · exact h
  · exact h

theorem setThreshold_valid (sc : Strconv) (v : String) (cfg : Config) (h : cfg.valid) :
    (setThreshold sc v cfg).valid := by
  unfold setThreshold
  split
  · rename_i t _
    split
    · rename_i hc
      rw [Bool.and_eq_true] at hc
      cases t with
      | nan => exact absurd hc.1 (by simp [F64.ge0])
      | posInf => exact absurd hc.2 (by simp [F64.le1])
      | negInf => exact absurd hc.1 (by simp [F64.ge0])
      | finite q =>
        have h0 : 0 ≤ q := by simpa [F64.ge0] using hc.1
        have h1 : q ≤ 1 := by simpa [F64.le1] using hc.2
        exact ⟨h.1, h0, h1, h.2.2.2⟩
    · exact h
  · exact h

theorem setPattern_valid (v : String) (cfg : Config) (h : cfg.valid) :
    (setPattern v cfg).valid := by
  unfold setPattern
  split
  · rename_i hs
    refine ⟨h.1, h.2.1, h.2.2.1, ?_⟩
    rcases patterns_cases v with hn | hv
    · rw [hn] at hs
      exact absurd hs (by simp)
    · exact hv
  · exact h

theorem defaultConfig_valid : defaultConfig.valid := by
  refine ⟨by decide, ?_, ?_, Or.inl rfl⟩
  · unfold defaultConfig; norm_num
  · unfold defaultConfig; norm_num

theorem flagStep_valid (sc : Strconv) (arguments : List String) (i : Nat) (cfg : Config)
    (hi : i < arguments.length) (h : cfg.valid) :
    ∃ j cfg', flagStep sc arguments i cfg = some (j, cfg') ∧ i < j ∧ cfg'.valid := by
  unfold flagStep
  rw [List.getElem?_eq_getElem hi]
  simp only
  split
  · split
    · rename_i h1
      rw [List.getElem?_eq_getElem h1]
      exact ⟨_, _, rfl, by omega, setFps_valid sc _ cfg h⟩
    · exact ⟨_, _, rfl, by omega, h⟩
  · split
    · split
      · rename_i h1
        rw [List.getElem?_eq_getElem h1]
        exact ⟨_, _, rfl, by omega, setThreshold_valid sc _ cfg h⟩
      · exact ⟨_, _, rfl, by omega, h⟩
    · split
      · split
        · rename_i h1
          rw [List.getElem?_eq_getElem h1]
          exact ⟨_, _, rfl, by omega, setPattern_valid _ cfg h⟩
        · exact ⟨_, _, rfl, by omega, h⟩
      · exact ⟨_, _, rfl, by omega, h⟩

theorem flagLoop_valid (sc : Strconv) (arguments : List String) (fuel : Nat) :
    ∀ (i : Nat) (cfg : Config), 0 < fuel → arguments.length < fuel + i → cfg.valid →
      ∃ cfg', flagLoop sc arguments fuel i cfg = some cfg' ∧ cfg'.valid := by
  induction fuel with
  | zero =>
    intro i cfg hpos
    exact absurd hpos (by omega)
  | succ m ih =>
    intro i cfg _ hlen h
    unfold flagLoop
    by_cases hi : i < arguments.length
    · rw [if_pos hi]
      obtain ⟨j, cfg', hs, hj, hv⟩ := flagStep_valid sc arguments i cfg hi h
      rw [hs]
      exact ih j cfg' (by omega) (by omega) hv
    · rw [if_neg hi]
      exact ⟨cfg, rfl, h⟩

theorem flagLoop_sample :
    (flagLoop sampleStrconv ["-f", "30", "--threshold", "0.5", "-p", "glider"] 7 0
      defaultConfig).map (fun cfg => (cfg.fps, cfg.threshold, cfg.pattern)) =
      some (30, 1 / 2, "glider") ∧
    (flagLoop sampleStrconv ["--fps", "0", "-t", "NaN", "--pattern", "life", "-f"] 8 0
      defaultConfig).map (fun cfg => (cfg.fps, cfg.threshold, cfg.pattern)) =
      some (10, 15 / 100, "random") := by
  decide!

/-! ## Repeated passes over the grids of `makecells` -/

theorem updatePasses_wellFormed (R C : Nat) (hC : 2 ≤ C) (k : Nat) :
    ∀ cells : Grid, WellFormed R C cells →
      ∃ g, updatePasses k cells = some g ∧ WellFormed R C g := by
  induction k with
  | zero =>
    intro cells hw
    exact ⟨cells, rfl, hw⟩
  | succ m ih =>
    intro cells hw
    obtain ⟨hp, hw1⟩ := updatePass_wellFormed R C cells hw hC
    obtain ⟨g, hg, hwg⟩ := ih _ hw1
    refine ⟨g, ?_, hwg⟩
    unfold updatePasses
    rw [hp, Option.some_bind]
    exact hg

theorem makecells_wellFormed (env : Env) (patternName : String) :
    ∃ g, makecells env patternName = some g ∧ WellFormed row columns g := by
  rcases patterns_cases patternName with h | h | h
  · exact ⟨_, makecells_random env patternName (Or.inl h),
      wellFormed_tab _ row columns (fun p _ q _ => randomCell_coords env p q)⟩
  · exact ⟨_, makecells_random env patternName (Or.inr h),
      wellFormed_tab _ row columns (fun p _ q _ => randomCell_coords env p q)⟩
  · obtain ⟨l, offsetX, offsetY, hg⟩ := makecells_builtin_tab env patternName h
    exact ⟨_, hg, wellFormed_tab _ row columns (fun p _ q _ => seeded_coords env l _ _ p q)⟩

theorem blinker_coords (p q : Nat) :
    (seeded (newCell sampleEnv) [[0, 1], [1, 1], [2, 1]] 49 49 p q).x = (p : Int) ∧
      (seeded (newCell sampleEnv) [[0, 1], [1, 1], [2, 1]] 49 49 p q).y = (q : Int) :=
  seeded_coords sampleEnv _ _ _ p q

theorem blinker_two_passes :
    (makecells sampleEnv "blinker").bind (updatePasses 2) =
      some (tab (stepCell (stepCell (seeded (newCell sampleEnv) [[0, 1], [1, 1], [2, 1]] 49 49)
        row columns) row columns) row columns) := by
  rw [makecells_blinker, Option.some_bind]
  unfold updatePasses
  rw [updatePass_tab _ row columns columns_ge_two (fun p _ q _ => blinker_coords p q),
    Option.some_bind]
  unfold updatePasses
  rw [updatePass_tab _ row columns columns_ge_two (fun p _ q _ => by
    rw [stepCell_x, stepCell_y]; exact blinker_coords p q), Option.some_bind]
  rfl

/-! ## Sample grids -/

theorem edgeGrid_wellFormed : WellFormed row columns edgeGrid :=
  wellFormed_tab _ row columns (fun p _ q _ => randomCell_coords edgeEnv p q)

theorem edgeGrid_settled (i j : Nat) (c : Cell) (hc : load edgeGrid i j = some c) :
    c.aliveNext = c.alive := by
  unfold edgeGrid at hc
  obtain ⟨_, _, rfl⟩ := load_tab_some _ row columns i j c hc
  rfl

theorem edgeGrid_only (i j : Nat) (c : Cell) (hc : load edgeGrid i j = some c) :
    c.alive = true ↔ i = 1 ∧ j = 0 := by
  unfold edgeGrid at hc
  obtain ⟨_, _, rfl⟩ := load_tab_some _ row columns i j c hc
  unfold randomCell edgeEnv
  simp only
  by_cases h : i = 1 ∧ j = 0
  · simp only [h, and_self, if_true, decide_eq_true_eq, iff_true]
    norm_num
  · simp only [h, if_false, decide_eq_true_eq, iff_false, not_lt]
    norm_num
/-! ## `liveNeighbours` by the number of columns -/

/-- C1: whenever `liveNeighbours` succeeds on the grid in which the receiver has been
committed, `checkState` succeeds and leaves in the receiver's `aliveNext` the
Game-of-Life table applied to the committed state `a` (the receiver's `aliveNext`
before the call) and the count `n`: `a` and `n < 2` give `false`, `a` and
`n = 2` or `n = 3` give `true`, `a` and `n > 3` give `false`, not `a` and `n = 3`
give `true`, not `a` and `n ≠ 3` give `false`. -/
theorem checkState_table (cells g : Grid) (i j : Nat) (c : Cell) (n : Int)
    (hc : load cells i j = some c)
    (hn : liveNeighbours (store cells i j { c with alive := c.aliveNext })
      { c with alive := c.aliveNext } = some (g, n)) :
    ∃ cells' c', checkState cells i j = some cells' ∧ load cells' i j = some c' ∧
      (c.aliveNext = true → n < 2 → c'.aliveNext = false) ∧
      (c.aliveNext = true → (n = 2 ∨ n = 3) → c'.aliveNext = true) ∧
      (c.aliveNext = true → n > 3 → c'.aliveNext = false) ∧
      (c.aliveNext = false → n = 3 → c'.aliveNext = true) ∧
      (c.aliveNext = false → n ≠ 3 → c'.aliveNext = false) := by
  have hg : g = store cells i j { c with alive := c.aliveNext } :=
    (liveNeighbours_frame _ _ _ _ hn).1
  subst hg
  refine ⟨store (store cells i j { c with alive := c.aliveNext }) i j
    (applyRule { c with alive := c.aliveNext } n),
    applyRule { c with alive := c.aliveNext } n, ?_, ?_, ?_⟩
  · simp [checkState, hc, hn]
  · exact load_store_same _ _ _ _ _ (load_store_same _ _ _ _ _ hc)
  · unfold applyRule
    refine ⟨?_, ?_, ?_, ?_, ?_⟩
    · intro ha h2
      have h3 : ¬ (n = 2 ∨ n = 3) := by omega
      have h4 : ¬ n > 3 := by omega
      simp [ha, h2, h3, h4]
    · intro ha h2
      have h3 : ¬ n < 2 := by omega
      have h4 : ¬ n > 3 := by omega
      simp [ha, h2, h3, h4]
    · intro ha h2
      have h3 : ¬ (n = 2 ∨ n = 3) := by omega
      have h4 : ¬ n < 2 := by omega
      simp [ha, h2, h3, h4]
    · intro ha h2
      simp [ha, h2]
    · intro ha h2
      simp [ha, h2]

theorem checkState_table_witness :
    load grid3 1 1 = some (sampleCell false false 1 1) ∧
    liveNeighbours (store grid3 1 1 (sampleCell false false 1 1))
      (sampleCell false false 1 1) = some (grid3, 1) ∧
    ∃ cells' c', checkState grid3 1 1 = some cells' ∧ load cells' 1 1 = some c' ∧
      ((sampleCell false false 1 1).aliveNext = true → (1 : Int) < 2 →
        c'.aliveNext = false) ∧
      ((sampleCell false false 1 1).aliveNext = true → ((1 : Int) = 2 ∨ (1 : Int) = 3) →
        c'.aliveNext = true) ∧
      ((sampleCell false false 1 1).aliveNext = true → (1 : Int) > 3 →
        c'.aliveNext = false) ∧
      ((sampleCell false false 1 1).aliveNext = false → (1 : Int) = 3 →
        c'.aliveNext = true) ∧
      ((sampleCell false false 1 1).aliveNext = false → (1 : Int) ≠ 3 →
        c'.aliveNext = false) :=
  ⟨by decide, by decide,
    checkState_table grid3 grid3 1 1 (sampleCell false false 1 1) 1 (by decide) (by decide)⟩

/-- C2, evaluated on the blinker: in the grid reached from `makecells("blinker")` by
one update pass, the cell `(49, 50)` is dead in the generation being committed
(`aliveNext = false`) and has exactly three neighbours alive in that generation, so
a pass reading a single snapshot would make it alive; the second update pass
of the code leaves its `aliveNext` at `false`. -/
theorem updatePass_second_pass_mixes :
    ∃ g1 g2 c1 c2,
      (makecells sampleEnv "blinker").bind updatePass = some g1 ∧
      updatePass g1 = some g2 ∧
      load g1 49 50 = some c1 ∧ c1.aliveNext = false ∧
      liveNeighbours (snapshot g1) c1 = some (snapshot g1, 3) ∧
      load g2 49 50 = some c2 ∧ c2.aliveNext = false := by
  have hxy0 : ∀ p, p < row → ∀ q, q < columns →
      (seeded (newCell sampleEnv) [[0, 1], [1, 1], [2, 1]] 49 49 p q).x = (p : Int) ∧
      (seeded (newCell sampleEnv) [[0, 1], [1, 1], [2, 1]] 49 49 p q).y = (q : Int) :=
    fun p _ q _ => seeded_coords sampleEnv _ _ _ p q
  have hxy1 : ∀ p, p < row → ∀ q, q < columns →
      (stepCell (seeded (newCell sampleEnv) [[0, 1], [1, 1], [2, 1]] 49 49) row columns p q).x
        = (p : Int) ∧
      (stepCell (seeded (newCell sampleEnv) [[0, 1], [1, 1], [2, 1]] 49 49) row columns p q).y
        = (q : Int) := by
    intro p hp q hq
    rw [stepCell_x, stepCell_y]
    exact hxy0 p hp q hq
  have h3 : nbCount (fun p q =>
      (stepCell (seeded (newCell sampleEnv) [[0, 1], [1, 1], [2, 1]] 49 49) row columns
        p q).aliveNext) row columns ((49 : Nat) : Int) ((50 : Nat) : Int) = 3 := by decide!
  refine ⟨tab (stepCell (seeded (newCell sampleEnv) [[0, 1], [1, 1], [2, 1]] 49 49)
      row columns) row columns,
    tab (stepCell (stepCell (seeded (newCell sampleEnv) [[0, 1], [1, 1], [2, 1]] 49 49)
      row columns) row columns) row columns,
    stepCell (seeded (newCell sampleEnv) [[0, 1], [1, 1], [2, 1]] 49 49) row columns 49 50,
    stepCell (stepCell (seeded (newCell sampleEnv) [[0, 1], [1, 1], [2, 1]] 49 49)
      row columns) row columns 49 50, ?_, ?_, ?_, ?_, ?_, ?_, ?_⟩
  · rw [makecells_blinker, Option.some_bind]
    exact updatePass_tab _ row columns columns_ge_two hxy0
  · exact updatePass_tab _ row columns columns_ge_two hxy1
  · exact load_tab _ row columns 49 50 (by decide) (by decide)
  · decide!
  · rw [snapshot_tab, liveNeighbours_tab _ row columns 49 50 _ columns_ge_two (by decide)
      (by decide) (hxy1 49 (by decide) 50 (by decide)).1 (hxy1 49 (by decide) 50 (by decide)).2]
    exact congrArg (fun n => some (_, n)) h3
  · exact load_tab _ row columns 49 50 (by decide) (by decide)
  · decide!

/-- C3, evaluated on a reachable grid: when random seeding makes `(1, 0)` the only
live cell of the `100 × 100` grid, `liveNeighbours` returns `0` for the cell
`(1, 99)`, whose toroidal neighbour count is `1`. -/
theorem liveNeighbours_last_column_not_toroidal :
    ∃ g c, makecells edgeEnv "random" = some g ∧ load g 1 99 = some c ∧
      c.x = 1 ∧ c.y = 99 ∧
      liveNeighbours g c = some (g, 0) ∧ toroidalCount g 100 100 1 99 = 1 := by
  have h0 : nbCount (fun p q => (randomCell edgeEnv p q).alive) row columns
      ((1 : Nat) : Int) ((99 : Nat) : Int) = 0 := by decide!
  refine ⟨tab (randomCell edgeEnv) row columns, randomCell edgeEnv 1 99,
    makecells_random edgeEnv "random" (Or.inr rfl),
    load_tab _ row columns 1 99 (by decide) (by decide), rfl, rfl, ?_, ?_⟩
  · rw [liveNeighbours_tab _ row columns 1 99 _ columns_ge_two (by decide) (by decide)
      (randomCell_coords edgeEnv 1 99).1 (randomCell_coords edgeEnv 1 99).2]
    exact congrArg (fun n => some (_, n)) h0
  · show toroidalCount (tab (randomCell edgeEnv) row columns) row columns 1 99 = 1
    rw [toroidalCount_tab _ row columns 1 99 (by decide) (by decide)]
    decide!

/-- C4: whenever `liveNeighbours` returns, the count it returns lies between `0`
and `8` and the grid is the one it was given: no field of any cell is modified. -/
theorem liveNeighbours_range_readonly (cells g : Grid) (c : Cell) (n : Int)
    (h : liveNeighbours cells c = some (g, n)) : 0 ≤ n ∧ n ≤ 8 ∧ g = cells := by
  obtain ⟨h1, h2, h3⟩ := liveNeighbours_frame cells g c n h
  exact ⟨h2, h3, h1⟩

theorem liveNeighbours_range_readonly_witness :
    liveNeighbours grid3 (sampleCell false false 1 1) = some (grid3, 1) ∧
      (0 : Int) ≤ 1 ∧ (1 : Int) ≤ 8 ∧ grid3 = grid3 :=
  ⟨by decide,
    liveNeighbours_range_readonly grid3 grid3 (sampleCell false false 1 1) 1 (by decide)⟩

/-- C6: for each of the four built-in fixed patterns, `makecells` returns a
`100 × 100` grid in which the cell `(i, j)` is alive exactly when
`(i - offsetX, j - offsetY)` is a coordinate of the pattern, where `maxX` and `maxY`
are the largest components among the coordinates (the values the code computes),
`offsetX = ⌊(100 - maxX) / 2⌋` and `offsetY = ⌊(100 - maxY) / 2⌋`; the number of
live cells is the number of coordinates, so none is skipped. -/
theorem makecells_builtin_pattern (env : Env) (p : String)
    (hp : p = "blinker" ∨ p = "glider" ∨ p = "lightweightspaceship" ∨ p = "pulsar") :
    ∃ coords maxX maxY g,
      patterns p = some coords ∧ maxCoords coords = some (maxX, maxY) ∧
      (∀ coord, coord ∈ coords → ∃ x y, coord = [x, y] ∧ x ≤ maxX ∧ y ≤ maxY) ∧
      (∃ y, [maxX, y] ∈ coords) ∧ (∃ x, [x, maxY] ∈ coords) ∧
      makecells env p = some g ∧
      g.length = 100 ∧ (∀ r, r ∈ g → r.length = 100) ∧
      (∀ i j, i < 100 → j < 100 → ∃ c, load g i j = some c ∧
        (c.alive = true ↔
          [(i : Int) - (100 - maxX) / 2, (j : Int) - (100 - maxY) / 2] ∈ coords)) ∧
      liveCells g = coords.length := by
  rcases hp with rfl | rfl | rfl | rfl
  · obtain ⟨g, h1, h2, h3, h4, h5⟩ := makecells_pattern_spec env "blinker"
      ((patterns "blinker").getD []) 2 1 (by rfl) (by decide) (by rfl) (by decide)
      (by decide) (by decide)
    refine ⟨(patterns "blinker").getD [], 2, 1, g, by rfl, by rfl,
      boxed_spec _ _ _ (by decide), ⟨1, by decide⟩, ⟨0, by decide⟩, h1, h2, h3, ?_, h5⟩
    intro i j hi hj
    obtain ⟨c, hc, _, hiff⟩ := h4 i j hi hj
    exact ⟨c, hc, hiff⟩
  · obtain ⟨g, h1, h2, h3, h4, h5⟩ := makecells_pattern_spec env "glider"
      ((patterns "glider").getD []) 2 2 (by rfl) (by decide) (by rfl) (by decide)
      (by decide) (by decide)
    refine ⟨(patterns "glider").getD [], 2, 2, g, by rfl, by rfl,
      boxed_spec _ _ _ (by decide), ⟨1, by decide⟩, ⟨0, by decide⟩, h1, h2, h3, ?_, h5⟩
    intro i j hi hj
    obtain ⟨c, hc, _, hiff⟩ := h4 i j hi hj
    exact ⟨c, hc, hiff⟩
  · obtain ⟨g, h1, h2, h3, h4, h5⟩ := makecells_pattern_spec env "lightweightspaceship"
      ((patterns "lightweightspaceship").getD []) 3 3 (by rfl) (by decide) (by rfl)
      (by decide) (by decide) (by decide)
    refine ⟨(patterns "lightweightspaceship").getD [], 3, 3, g, by rfl, by rfl,
      boxed_spec _ _ _ (by decide), ⟨0, by decide⟩, ⟨0, by decide⟩, h1, h2, h3, ?_, h5⟩
    intro i j hi hj
    obtain ⟨c, hc, _, hiff⟩ := h4 i j hi hj
    exact ⟨c, hc, hiff⟩
  · obtain ⟨g, h1, h2, h3, h4, h5⟩ := makecells_pattern_spec env "pulsar"
      ((patterns "pulsar").getD []) 12 12 (by decide!) (by decide) (by decide!) (by decide!)
      (by decide!) (by decide!)
    refine ⟨(patterns "pulsar").getD [], 12, 12, g, by decide!, by decide!,
      boxed_spec _ _ _ (by decide!), ⟨2, by decide!⟩, ⟨2, by decide!⟩, h1, h2, h3, ?_, h5⟩
    intro i j hi hj
    obtain ⟨c, hc, _, hiff⟩ := h4 i j hi hj
    exact ⟨c, hc, hiff⟩

theorem makecells_builtin_pattern_witness :
    ∃ coords maxX maxY g,
      patterns "glider" = some coords ∧ maxCoords coords = some (maxX, maxY) ∧
      (∀ coord, coord ∈ coords → ∃ x y, coord = [x, y] ∧ x ≤ maxX ∧ y ≤ maxY) ∧
      (∃ y, [maxX, y] ∈ coords) ∧ (∃ x, [x, maxY] ∈ coords) ∧
      makecells sampleEnv "glider" = some g ∧
      g.length = 100 ∧ (∀ r, r ∈ g → r.length = 100) ∧
      (∀ i j, i < 100 → j < 100 → ∃ c, load g i j = some c ∧
        (c.alive = true ↔
          [(i : Int) - (100 - maxX) / 2, (j : Int) - (100 - maxY) / 2] ∈ coords)) ∧
      liveCells g = coords.length :=
  makecells_builtin_pattern sampleEnv "glider" (Or.inr (Or.inl rfl))

/-- C7: for every pattern name, every threshold and every outcome of the random
source, `makecells` returns a `100 × 100` grid in which every cell has
`alive = aliveNext`. -/
theorem makecells_alive_eq_aliveNext (env : Env) (patternName : String) :
    ∃ g, makecells env patternName = some g ∧
      g.length = 100 ∧ (∀ r, r ∈ g → r.length = 100) ∧
      ∀ r, r ∈ g → ∀ c, c ∈ r → c.alive = c.aliveNext := by
  rcases patterns_cases patternName with h | h | h
  · refine ⟨_, makecells_random env patternName (Or.inl h), tab_length _ _ _,
      tab_row_length _ _ _, ?_⟩
    intro r hr c hc
    obtain ⟨i, j, _, _, rfl⟩ := mem_tab _ _ _ r c hr hc
    rfl
  · refine ⟨_, makecells_random env patternName (Or.inr h), tab_length _ _ _,
      tab_row_length _ _ _, ?_⟩
    intro r hr c hc
    obtain ⟨i, j, _, _, rfl⟩ := mem_tab _ _ _ r c hr hc
    rfl
  · obtain ⟨l, offsetX, offsetY, hg⟩ := makecells_builtin_tab env patternName h
    refine ⟨_, hg, tab_length _ _ _, tab_row_length _ _ _, ?_⟩
    intro r hr c hc
    obtain ⟨i, j, _, _, rfl⟩ := mem_tab _ _ _ r c hr hc
    rw [seeded_alive, seeded_aliveNext]

/-- C9: in the random branch of `makecells` (the name `random` or a name that is not
a key of `patterns`), with draws in `[0, 1)`, a threshold of `0` yields a
`100 × 100` grid in which every cell is dead and a threshold of `1` yields one in
which every cell is alive, both in `alive` and in `aliveNext`. -/
theorem makecells_threshold_extremes (env : Env) (patternName : String)
    (hp : patterns patternName = none ∨ patternName = "random")
    (hr : ∀ x y, 0 ≤ env.randFloat32 x y ∧ env.randFloat32 x y < 1) :
    ∃ g, makecells env patternName = some g ∧
      g.length = 100 ∧ (∀ r, r ∈ g → r.length = 100) ∧
      (env.threshold = 0 → ∀ r, r ∈ g → ∀ c, c ∈ r → c.alive = false ∧ c.aliveNext = false) ∧
      (env.threshold = 1 → ∀ r, r ∈ g → ∀ c, c ∈ r → c.alive = true ∧ c.aliveNext = true) := by
  refine ⟨_, makecells_random env patternName hp, tab_length _ _ _, tab_row_length _ _ _,
    ?_, ?_⟩
  · intro ht r hr1 c hc
    obtain ⟨i, j, _, _, rfl⟩ := mem_tab _ _ _ r c hr1 hc
    have hd : decide (env.randFloat32 i j < env.threshold) = false := by
      rw [decide_eq_false_iff_not, ht, not_lt]
      exact (hr i j).1
    exact ⟨hd, hd⟩
  · intro ht r hr1 c hc
    obtain ⟨i, j, _, _, rfl⟩ := mem_tab _ _ _ r c hr1 hc
    have hd : decide (env.randFloat32 i j < env.threshold) = true := by
      rw [decide_eq_true_eq, ht]
      exact (hr i j).2
    exact ⟨hd, hd⟩

theorem makecells_threshold_extremes_witness :
    (∃ g, makecells zeroEnv "random" = some g ∧ g.length = 100 ∧
      (∀ r, r ∈ g → r.length = 100) ∧
      ∀ r, r ∈ g → ∀ c, c ∈ r → c.alive = false ∧ c.aliveNext = false) ∧
    (∃ g, makecells oneEnv "conway" = some g ∧ g.length = 100 ∧
      (∀ r, r ∈ g → r.length = 100) ∧
      ∀ r, r ∈ g → ∀ c, c ∈ r → c.alive = true ∧ c.aliveNext = true) := by
  constructor
  · obtain ⟨g, h1, h2, h3, h4, _⟩ := makecells_threshold_extremes zeroEnv "random"
      (Or.inr rfl) (fun _ _ => by unfold zeroEnv; norm_num)
    exact ⟨g, h1, h2, h3, h4 rfl⟩
  · obtain ⟨g, h1, h2, h3, _, h5⟩ := makecells_threshold_extremes oneEnv "conway"
      (Or.inl (by decide)) (fun _ _ => by unfold oneEnv; norm_num)
    exact ⟨g, h1, h2, h3, h5 rfl⟩

/-- C10: `makecells("blinker")` returns a `100 × 100` grid in which exactly the cells
`(49, 50)`, `(50, 50)` and `(51, 50)` are alive, and one update pass over it
succeeds and leaves `aliveNext = true` in exactly the cells `(50, 49)`, `(50, 50)`
and `(50, 51)`. -/
theorem blinker_first_generation (env : Env) :
    ∃ g0 g1, makecells env "blinker" = some g0 ∧ updatePass g0 = some g1 ∧
      g0.length = 100 ∧ (∀ r, r ∈ g0 → r.length = 100) ∧
      g1.length = 100 ∧ (∀ r, r ∈ g1 → r.length = 100) ∧
      (∀ i j, i < 100 → j < 100 → ∃ c, load g0 i j = some c ∧
        (c.alive = true ↔ (i = 49 ∧ j = 50) ∨ (i = 50 ∧ j = 50) ∨ (i = 51 ∧ j = 50))) ∧
      (∀ i j, i < 100 → j < 100 → ∃ c, load g1 i j = some c ∧
        (c.aliveNext = true ↔ (i = 50 ∧ j = 49) ∨ (i = 50 ∧ j = 50) ∨ (i = 50 ∧ j = 51))) := by
  have hset : ∀ p q,
      (seeded (newCell env) [[0, 1], [1, 1], [2, 1]] 49 49 p q).aliveNext =
      (seeded (newCell env) [[0, 1], [1, 1], [2, 1]] 49 49 p q).alive := by
    intro p q
    rw [seeded_alive, seeded_aliveNext]
  have halive : (fun p q => (seeded (newCell env) [[0, 1], [1, 1], [2, 1]] 49 49 p q).alive)
      = blinkerAlive := by
    funext p q
    rw [seeded_alive, hit_blinker]
  refine ⟨tab (seeded (newCell env) [[0, 1], [1, 1], [2, 1]] 49 49) row columns,
    tab (stepCell (seeded (newCell env) [[0, 1], [1, 1], [2, 1]] 49 49) row columns)
      row columns,
    makecells_blinker env,
    updatePass_tab _ row columns columns_ge_two (fun p _ q _ => seeded_coords env _ _ _ p q),
    tab_length _ _ _, tab_row_length _ _ _, tab_length _ _ _, tab_row_length _ _ _, ?_, ?_⟩
  · intro i j hi hj
    refine ⟨_, load_tab _ row columns i j hi hj, ?_⟩
    rw [seeded_alive, hit_blinker]
    unfold blinkerAlive
    rw [decide_eq_true_eq]
    omega
  · intro i j hi hj
    refine ⟨_, load_tab _ row columns i j hi hj, ?_⟩
    rw [stepCell_settled _ _ _ _ _ hset, halive, seeded_alive, hit_blinker]
    exact blinker_step i j hi hj


/-- C11, evaluated on the code: two update passes after `makecells("blinker")` do not
give back the seed.  The cell `(49, 50)` of the seed ends with `aliveNext = false`
and the cell `(51, 49)`, which is not in the seed, ends with `aliveNext = true`. -/
theorem blinker_second_pass_not_seed :
    ∃ g0 g2 c0 c2 d0 d2,
      makecells sampleEnv "blinker" = some g0 ∧
      (makecells sampleEnv "blinker").bind (updatePasses 2) = some g2 ∧
      load g0 49 50 = some c0 ∧ c0.alive = true ∧
      load g2 49 50 = some c2 ∧ c2.aliveNext = false ∧
      load g0 51 49 = some d0 ∧ d0.alive = false ∧
      load g2 51 49 = some d2 ∧ d2.aliveNext = true := by
  refine ⟨_, _, _, _, _, _, makecells_blinker sampleEnv, blinker_two_passes,
    load_tab _ row columns 49 50 (by decide) (by decide), by decide!,
    load_tab _ row columns 49 50 (by decide) (by decide), by decide!,
    load_tab _ row columns 51 49 (by decide) (by decide), by decide!,
    load_tab _ row columns 51 49 (by decide) (by decide), by decide!⟩

/-- C12: on a grid with `alive = aliveNext` in every cell and whose state is a fixed
point of the rule as `liveNeighbours` counts (every live cell has 2 or 3 live
neighbours, no dead cell has exactly 3), any number of update passes returns the
grid unchanged, cell by cell and field by field. -/
theorem still_life_fixed (cells : Grid)
    (h : ∀ i j c, load cells i j = some c → c.aliveNext = c.alive ∧
      ∃ n, liveNeighbours cells c = some (cells, n) ∧
        (c.alive = true → n = 2 ∨ n = 3) ∧ (c.alive = false → n ≠ 3))
    (k : Nat) : updatePasses k cells = some cells := by
  induction k with
  | zero => rfl
  | succ m ih =>
    unfold updatePasses
    rw [updatePass_fixed cells h, Option.some_bind]
    exact ih

theorem still_life_fixed_witness :
    makecells blockEnv "random" = some blockGrid ∧
      (∃ c, load blockGrid 49 49 = some c ∧ c.alive = true) ∧
      updatePasses 2 blockGrid = some blockGrid :=
  ⟨makecells_random blockEnv "random" (Or.inr rfl),
    ⟨_, load_tab _ row columns 49 49 (by decide) (by decide), by decide!⟩,
    still_life_fixed blockGrid blockGrid_still 2⟩

/-- C13: for every position `(x, y)` of a well-formed `100 × 100` grid with
`alive = aliveNext` everywhere and `(x, y)` as its only live cell, the first update
pass leaves `aliveNext = false` in every cell and the second pass leaves
`alive = false` and `aliveNext = false` in every cell. -/
theorem isolated_cell_dies (cells : Grid) (x y : Nat) (hx : x < 100) (hy : y < 100)
    (hw : WellFormed row columns cells)
    (hs : ∀ i j c, load cells i j = some c → c.aliveNext = c.alive)
    (honly : ∀ i j c, load cells i j = some c → (c.alive = true ↔ i = x ∧ j = y)) :
    ∃ g1 g2, updatePass cells = some g1 ∧ updatePass g1 = some g2 ∧
      (∃ c, load cells x y = some c ∧ c.alive = true) ∧
      (∀ i j, i < 100 → j < 100 → ∃ c, load g1 i j = some c ∧ c.aliveNext = false) ∧
      (∀ i j, i < 100 → j < 100 →
        ∃ c, load g2 i j = some c ∧ c.alive = false ∧ c.aliveNext = false) := by
  have ha : ∀ u v, (cellAt cells u v).alive = true → u = x ∧ v = y := by
    intro u v h
    unfold cellAt at h
    cases hc : load cells u v with
    | none => rw [hc] at h; exact absurd h (by simp)
    | some c => rw [hc] at h; exact (honly u v c hc).mp h
  have hn : ∀ u v, (cellAt cells u v).aliveNext = true → u = x ∧ v = y := by
    intro u v h
    unfold cellAt at h ha
    have h2 := ha u v
    cases hc : load cells u v with
    | none => rw [hc] at h; exact absurd h (by simp)
    | some c =>
      rw [hc] at h h2
      exact h2 ((hs u v c hc) ▸ h)
  have hR : 3 ≤ row := by decide
  have hC : 4 ≤ columns := by decide
  obtain ⟨hp1, hw1⟩ := updatePass_wellFormed row columns cells hw columns_ge_two
  obtain ⟨hp2, _⟩ := updatePass_wellFormed row columns _ hw1 columns_ge_two
  have h1 : ∀ i j, i < row → j < columns →
      (stepCell (cellAt cells) row columns i j).aliveNext = false :=
    fun i j hi hj => stepCell_single _ row columns x y i j hR hC hi hj ha hn
  have hcell1 : ∀ u v, cellAt (tab (stepCell (cellAt cells) row columns) row columns) u v =
      if u < row ∧ v < columns then stepCell (cellAt cells) row columns u v
      else { drawable := 0, alive := false, aliveNext := false, x := u, y := v } :=
    fun u v => cellAt_tab _ row columns u v
  refine ⟨_, _, hp1, hp2, ⟨cellAt cells x y, wellFormed_load row columns cells hw x y hx hy, ?_⟩,
    ?_, ?_⟩
  · exact (honly x y _ (wellFormed_load row columns cells hw x y hx hy)).mpr ⟨rfl, rfl⟩
  · intro i j hi hj
    exact ⟨_, load_tab _ row columns i j hi hj, h1 i j hi hj⟩
  · intro i j hi hj
    refine ⟨_, load_tab _ row columns i j hi hj, ?_, ?_⟩
    · rw [stepCell_alive, hcell1, if_pos ⟨hi, hj⟩]
      exact h1 i j hi hj
    · apply stepCell_single _ row columns x y i j hR hC hi hj
      · intro u v h
        rw [hcell1] at h
        split at h
        · rw [stepCell_alive] at h
          exact hn u v h
        · exact absurd h (by simp)
      · intro u v h
        rw [hcell1] at h
        split at h
        · rename_i huv
          rw [h1 u v huv.1 huv.2] at h
          exact absurd h (by simp)
        · exact absurd h (by simp)

theorem isolated_cell_dies_witness :
    ∃ g1 g2, updatePass edgeGrid = some g1 ∧ updatePass g1 = some g2 ∧
      (∃ c, load edgeGrid 1 0 = some c ∧ c.alive = true) ∧
      (∀ i j, i < 100 → j < 100 → ∃ c, load g1 i j = some c ∧ c.aliveNext = false) ∧
      (∀ i j, i < 100 → j < 100 →
        ∃ c, load g2 i j = some c ∧ c.alive = false ∧ c.aliveNext = false) :=
  isolated_cell_dies edgeGrid 1 0 (by decide) (by decide) edgeGrid_wellFormed
    edgeGrid_settled edgeGrid_only

/-- C14: for every argument list and every behaviour of `strconv`, the flag loop run
with more fuel than there are arguments returns, with no index out of range, a
configuration with `fps > 0`, `0 ≤ threshold ≤ 1` and a pattern among the five
names, so the division of the frame loop does not divide by zero; an iteration on
a flag in the last position, on a `--fps` or `--threshold` value that does not
parse or is out of range, or on a `--pattern` value that is not a key of `patterns`
leaves the configuration as it was. -/
theorem flagLoop_configuration (sc : Strconv) (arguments : List String) :
    (∀ fuel, arguments.length < fuel →
      ∃ cfg, flagLoop sc arguments fuel 0 defaultConfig = some cfg ∧ cfg.valid ∧
        (frameBudget cfg).isSome = true) ∧
    (∀ (i : Nat) (a : String) (cfg : Config), arguments[i]? = some a →
      i + 1 = arguments.length → flagStep sc arguments i cfg = some (i + 1, cfg)) ∧
    (∀ (i : Nat) (a v : String) (cfg : Config), arguments[i]? = some a →
      arguments[i + 1]? = some v → a = "--fps" ∨ a = "-f" →
      (sc.atoi v = none ∨ ∃ n, sc.atoi v = some n ∧ n ≤ 0) →
      flagStep sc arguments i cfg = some (i + 1 + 1, cfg)) ∧
    (∀ (i : Nat) (a v : String) (cfg : Config), arguments[i]? = some a →
      arguments[i + 1]? = some v → a = "--threshold" ∨ a = "-t" →
      (sc.parseFloat v = none ∨
        ∃ t, sc.parseFloat v = some t ∧ ¬ (t.ge0 = true ∧ t.le1 = true)) →
      flagStep sc arguments i cfg = some (i + 1 + 1, cfg)) ∧
    (∀ (i : Nat) (a v : String) (cfg : Config), arguments[i]? = some a →
      arguments[i + 1]? = some v → a = "--pattern" ∨ a = "-p" → patterns v = none →
      flagStep sc arguments i cfg = some (i + 1, cfg)) := by
  refine ⟨?_, ?_, ?_, ?_, ?_⟩
  · intro fuel hfuel
    obtain ⟨cfg, hc, hv⟩ := flagLoop_valid sc arguments fuel 0 defaultConfig (by omega)
      (by omega) defaultConfig_valid
    refine ⟨cfg, hc, hv, ?_⟩
    unfold frameBudget
    have hne : ¬ cfg.fps = 0 := by
      have := hv.1
      omega
    rw [if_neg hne]
    rfl
  · intro i a cfg ha hlast
    have hn : ¬ i + 1 < arguments.length := by omega
    unfold flagStep
    rw [ha]
    simp only [hn, if_false]
    split_ifs <;> rfl
  · intro i a v cfg ha hv hflag hbad
    have hlt : i + 1 < arguments.length := (List.getElem?_eq_some.mp hv).1
    have e : setFps sc v cfg = cfg := by
      unfold setFps
      rcases hbad with h | ⟨n, h, hn⟩
      · rw [h]
      · rw [h]
        simp only
        rw [if_neg (by omega)]
    unfold flagStep
    rw [ha]
    simp only [hflag, if_true, hlt, hv, e]
  · intro i a v cfg ha hv hflag hbad
    have hlt : i + 1 < arguments.length := (List.getElem?_eq_some.mp hv).1
    have hnf : ¬ (a = "--fps" ∨ a = "-f") := by
      rcases hflag with h | h <;> subst h <;> decide
    have e : setThreshold sc v cfg = cfg := by
      unfold setThreshold
      rcases hbad with h | ⟨t, h, ht⟩
      · rw [h]
      · rw [h]
        simp only
        rw [if_neg (by rw [Bool.and_eq_true]; exact ht)]
    unfold flagStep
    rw [ha]
    simp only [hnf, if_false, hflag, if_true, hlt, hv, e]
  · intro i a v cfg ha hv hflag hbad
    have hlt : i + 1 < arguments.length := (List.getElem?_eq_some.mp hv).1
    have hnf : ¬ (a = "--fps" ∨ a = "-f") := by
      rcases hflag with h | h <;> subst h <;> decide
    have hnt : ¬ (a = "--threshold" ∨ a = "-t") := by
      rcases hflag with h | h <;> subst h <;> decide
    have e : setPattern v cfg = cfg := by
      unfold setPattern
      rw [hbad]
      rfl
    unfold flagStep
    rw [ha]
    simp only [hnf, hnt, if_false, hflag, if_true, hlt, hv, e]

/-- C15 as stated fails: after the first update pass over `makecells("blinker")` the
cell `(49, 50)` has `alive = true` and `aliveNext = false`. -/
theorem alive_lags_counterexample :
    ∃ g0 g1 c, makecells sampleEnv "blinker" = some g0 ∧ updatePass g0 = some g1 ∧
      load g1 49 50 = some c ∧ c.alive = true ∧ c.aliveNext = false := by
  refine ⟨_, _, _, makecells_blinker sampleEnv,
    updatePass_tab _ row columns columns_ge_two (fun p _ q _ => blinker_coords p q),
    load_tab _ row columns 49 50 (by decide) (by decide), by decide!, by decide!⟩

/-- C15, amended: after any number of update passes over a grid produced by
`makecells`, one further pass succeeds and leaves in every cell's `alive` the
`aliveNext` the cell had before that pass. -/
theorem updatePass_resyncs_previous (env : Env) (patternName : String) (k : Nat) :
    ∃ g g', (makecells env patternName).bind (updatePasses k) = some g ∧
      updatePass g = some g' ∧
      ∀ i j, i < 100 → j < 100 → ∃ c c', load g i j = some c ∧ load g' i j = some c' ∧
        c'.alive = c.aliveNext := by
  obtain ⟨g0, hg0, hw0⟩ := makecells_wellFormed env patternName
  obtain ⟨g, hg, hw⟩ := updatePasses_wellFormed row columns columns_ge_two k g0 hw0
  obtain ⟨hp, _⟩ := updatePass_wellFormed row columns g hw columns_ge_two
  refine ⟨g, _, ?_, hp, ?_⟩
  · rw [hg0, Option.some_bind]
    exact hg
  · intro i j hi hj
    have hl := wellFormed_load row columns g hw i j hi hj
    obtain ⟨c', hc', ha⟩ := updatePass_commits g _ i j _ hp hl
    exact ⟨_, c', hl, hc', ha⟩

/-- C16: a `checkState` call that returns keeps the number of rows and the length of
every row, keeps `x`, `y` and `drawable` of every cell, and leaves every cell other
than the receiver as it was; an update pass that returns keeps the number of rows,
the length of every row and `x`, `y` and `drawable` of every cell. -/
theorem checkState_frame (cells : Grid) :
    (∀ (cells' : Grid) (i j : Nat), checkState cells i j = some cells' →
      cells'.length = cells.length ∧
      (∀ p : Nat, (cells'[p]?).map List.length = (cells[p]?).map List.length) ∧
      (∀ p q c, load cells p q = some c → ∃ c', load cells' p q = some c' ∧
        c'.x = c.x ∧ c'.y = c.y ∧ c'.drawable = c.drawable ∧
        ((p ≠ i ∨ q ≠ j) → c' = c))) ∧
    (∀ cells2 : Grid, updatePass cells = some cells2 →
      cells2.length = cells.length ∧
      (∀ p : Nat, (cells2[p]?).map List.length = (cells[p]?).map List.length) ∧
      (∀ p q c, load cells p q = some c → ∃ c', load cells2 p q = some c' ∧
        c'.x = c.x ∧ c'.y = c.y ∧ c'.drawable = c.drawable)) := by
  constructor
  · intro cells' i j h
    have hf := checkState_frameOf cells cells' i j h
    refine ⟨frameOf_length _ _ hf, frameOf_row _ _ hf, ?_⟩
    intro p q c hc
    obtain ⟨c', hc', hx, hy, hd⟩ := frameOf_load _ _ hf p q c hc
    refine ⟨c', hc', hx, hy, hd, ?_⟩
    intro hne
    have e := checkState_other cells cells' i j p q h hne
    rw [hc, hc'] at e
    exact Option.some.inj e
  · intro cells2 h2
    have hf2 := updatePass_frameOf cells cells2 h2
    exact ⟨frameOf_length _ _ hf2, frameOf_row _ _ hf2, frameOf_load _ _ hf2⟩

theorem checkState_frame_witness :
    checkState grid3 1 0 = some (store grid3 1 0 (sampleCell true false 1 0)) ∧
    ((store grid3 1 0 (sampleCell true false 1 0)).length = grid3.length ∧
      (∀ p : Nat, ((store grid3 1 0 (sampleCell true false 1 0))[p]?).map List.length =
        (grid3[p]?).map List.length) ∧
      (∀ p q c, load grid3 p q = some c →
        ∃ c', load (store grid3 1 0 (sampleCell true false 1 0)) p q = some c' ∧
          c'.x = c.x ∧ c'.y = c.y ∧ c'.drawable = c.drawable ∧
          ((p ≠ 1 ∨ q ≠ 0) → c' = c))) ∧
    (∃ cells2 : Grid, updatePass grid3 = some cells2 ∧ cells2.length = grid3.length) := by
  have h : checkState grid3 1 0 = some (store grid3 1 0 (sampleCell true false 1 0)) := by
    decide
  have hp : updatePass grid3 = some ((updatePass grid3).getD []) := by decide
  exact ⟨h, (checkState_frame grid3).1 _ 1 0 h, _, hp, ((checkState_frame grid3).2 _ hp).1⟩

/-- C17 as stated fails for a grid with exactly two columns: on the `3 × 2` grid whose
only live cell is `(0, 0)`, `liveNeighbours` counts `1` for the cell `(1, 1)` of
the last column, and `0` once the cell `(0, 0)` is dead: the live cell of column
`0` is counted. -/
theorem column_zero_counted_counterexample :
    load grid32 0 0 = some (sampleCell true true 0 0) ∧
    load grid32 1 1 = some (sampleCell false false 1 1) ∧
    liveNeighbours grid32 (sampleCell false false 1 1) = some (grid32, 1) ∧
      liveNeighbours (store grid32 0 0 (sampleCell false false 0 0))
        (sampleCell false false 1 1) =
        some (store grid32 0 0 (sampleCell false false 0 0), 0) := by
  decide

/-- C17, amended: on a rectangular grid with at least 2 columns `add` reads row `0`
for a first index `ROWS`, the last row for a first index `-1`, the last column for
a second index `-1`, and column `1` for a second index `COLS`; for a cell of the
last column `liveNeighbours` reads the columns `COLS-1`, `1` and `COLS-2`; and with
at least 3 columns the count of a cell of the last column does not depend on the
cells of column `0`. -/
theorem wrap_asymmetric (f : Nat → Nat → Cell) (R C : Nat) (k : Int) (hR : 1 ≤ R)
    (hC : 2 ≤ C) :
    (∀ y : Nat, y < C →
      add { cells := tab f R C, liveCount := k } (R : Int) (y : Int) =
        some { cells := tab f R C, liveCount := k + lit (f 0 y).alive } ∧
      add { cells := tab f R C, liveCount := k } (-1) (y : Int) =
        some { cells := tab f R C, liveCount := k + lit (f (R - 1) y).alive }) ∧
    (∀ x : Nat, x < R →
      add { cells := tab f R C, liveCount := k } (x : Int) (-1) =
        some { cells := tab f R C, liveCount := k + lit (f x (C - 1)).alive } ∧
      add { cells := tab f R C, liveCount := k } (x : Int) (C : Int) =
        some { cells := tab f R C, liveCount := k + lit (f x 1).alive }) ∧
    (∀ (i : Nat) (c : Cell), i < R → c.x = (i : Int) → c.y = ((C - 1 : Nat) : Int) →
      liveNeighbours (tab f R C) c = some (tab f R C,
        0 + lit (f (wrapX R ((i : Int) - 1)) (C - 1)).alive
          + lit (f (wrapX R ((i : Int) + 1)) (C - 1)).alive
          + lit (f (wrapX R (i : Int)) 1).alive + lit (f (wrapX R (i : Int)) (C - 2)).alive
          + lit (f (wrapX R ((i : Int) - 1)) 1).alive
          + lit (f (wrapX R ((i : Int) + 1)) 1).alive
          + lit (f (wrapX R ((i : Int) - 1)) (C - 2)).alive
          + lit (f (wrapX R ((i : Int) + 1)) (C - 2)).alive)) ∧
    (3 ≤ C → ∀ (g : Nat → Nat → Cell) (i : Nat) (c : Cell),
      (∀ p q, q ≠ 0 → (g p q).alive = (f p q).alive) →
      i < R → c.x = (i : Int) → c.y = ((C - 1 : Nat) : Int) →
      ∃ n, liveNeighbours (tab f R C) c = some (tab f R C, n) ∧
        liveNeighbours (tab g R C) c = some (tab g R C, n)) := by
  refine ⟨?_, ?_, ?_, ?_⟩
  · intro y hy
    constructor
    · rw [add_tab f R C k _ _ hR hC (by omega) (by omega) (by omega) (by omega), bump_lit,
        wrapX_top, wrapY_mid C y hy]
    · rw [add_tab f R C k _ _ hR hC (by omega) (by omega) (by omega) (by omega), bump_lit,
        wrapX_neg R hR, wrapY_mid C y hy]
  · intro x hx
    constructor
    · rw [add_tab f R C k _ _ hR hC (by omega) (by omega) (by omega) (by omega), bump_lit,
        wrapX_mid R x hx, wrapY_neg C (by omega)]
    · rw [add_tab f R C k _ _ hR hC (by omega) (by omega) (by omega) (by omega), bump_lit,
        wrapX_mid R x hx, wrapY_top]
  · intro i c hi hx hy
    rw [liveNeighbours_tab f R C i (C - 1) c hC hi (by omega) hx hy,
      nbCount_last_column _ R C i hC]
  · intro hC3 g i c hg hi hx hy
    refine ⟨_, liveNeighbours_tab f R C i (C - 1) c hC hi (by omega) hx hy, ?_⟩
    rw [liveNeighbours_tab g R C i (C - 1) c hC hi (by omega) hx hy,
      nbCount_column_zero (fun p q => (f p q).alive) (fun p q => (g p q).alive) R C i hC3 hg]

theorem wrap_asymmetric_witness :
    1 ≤ row ∧ 2 ≤ columns ∧
      add { cells := edgeGrid, liveCount := 0 } ((1 : Nat) : Int) (-1) =
        some { cells := edgeGrid
               liveCount := 0 + lit (randomCell edgeEnv 1 (columns - 1)).alive } ∧
      add { cells := edgeGrid, liveCount := 0 } ((1 : Nat) : Int) (columns : Int) =
        some { cells := edgeGrid, liveCount := 0 + lit (randomCell edgeEnv 1 1).alive } :=
  ⟨by decide, by decide,
    (wrap_asymmetric (randomCell edgeEnv) row columns 0 (by decide) (by decide)).2.1 1
      (by decide)⟩

/-- C18: on a well-formed `ROWS × COLS` grid, for every cell `(x, y)` with
`y ≤ COLS - 2`, `liveNeighbours` returns the toroidal neighbour count. -/
theorem liveNeighbours_toroidal_inner (R C : Nat) (cells : Grid) (hw : WellFormed R C cells)
    (i j : Nat) (c : Cell) (hc : load cells i j = some c) (hj : j + 2 ≤ C) :
    liveNeighbours cells c = some (cells, ((toroidalCount cells R C i j : Nat) : Int)) := by
  have heq := wellFormed_eq_tab R C cells hw
  have hxy := hw.2.2 i j c hc
  have hi : i < R := by
    have := (load_lt_getD cells i j c hc).1
    rw [hw.1] at this
    exact this
  have h := liveNeighbours_tab (cellAt cells) R C i j c (by omega) hi (by omega) hxy.1 hxy.2
  rw [nbCount_toroidal (cellAt cells) R C i j hi hj, ← heq] at h
  exact h

theorem liveNeighbours_toroidal_inner_witness :
    load edgeGrid 0 1 = some (randomCell edgeEnv 0 1) ∧ 1 + 2 ≤ columns ∧
      toroidalCount edgeGrid row columns ((0 : Nat) : Int) ((1 : Nat) : Int) = 1 ∧
      liveNeighbours edgeGrid (randomCell edgeEnv 0 1) =
        some (edgeGrid,
          ((toroidalCount edgeGrid row columns ((0 : Nat) : Int) ((1 : Nat) : Int) : Nat) :
            Int)) := by
  have hl : load edgeGrid 0 1 = some (randomCell edgeEnv 0 1) :=
    load_tab _ row columns 0 1 (by decide) (by decide)
  refine ⟨hl, by decide, ?_,
    liveNeighbours_toroidal_inner row columns edgeGrid edgeGrid_wellFormed 0 1 _ hl (by decide)⟩
  unfold edgeGrid
  rw [toroidalCount_tab _ row columns _ _ (by decide) (by decide)]
  decide!

/-- C19: on a well-formed grid with at least 2 columns and `alive = aliveNext` in
every cell, one update pass succeeds, leaves every cell's `alive` unchanged and
sets every cell's `aliveNext` to the rule applied to the cell's `alive` and to the
count `liveNeighbours` returns on the grid before the pass; visiting every cell
once in any other order gives the same grid. -/
theorem first_pass_synchronous (R C : Nat) (cells : Grid) (hw : WellFormed R C cells)
    (hC : 2 ≤ C) (hs : ∀ i j c, load cells i j = some c → c.aliveNext = c.alive) :
    ∃ cells', updatePass cells = some cells' ∧
      (∀ i j c, load cells i j = some c → ∃ n c',
        liveNeighbours cells c = some (cells, n) ∧ load cells' i j = some c' ∧
        c'.alive = c.alive ∧
        c'.aliveNext = if c.alive then decide (n = 2 ∨ n = 3) else decide (n = 3)) ∧
      (∀ order : List (Nat × Nat), order.Nodup →
        (∀ i j, (i, j) ∈ order ↔ i < R ∧ j < C) → visit order cells = some cells') := by
  have hset : ∀ p q, (cellAt cells p q).aliveNext = (cellAt cells p q).alive := by
    intro p q
    unfold cellAt
    cases hc : load cells p q with
    | none => rfl
    | some c => exact hs p q c hc
  have h := first_pass_tab (cellAt cells) R C hC (wellFormed_coords R C cells hw) hset
  rw [← wellFormed_eq_tab R C cells hw] at h
  exact h

theorem first_pass_synchronous_witness :
    ∃ cells', updatePass edgeGrid = some cells' ∧
      (∀ i j c, load edgeGrid i j = some c → ∃ n c',
        liveNeighbours edgeGrid c = some (edgeGrid, n) ∧ load cells' i j = some c' ∧
        c'.alive = c.alive ∧
        c'.aliveNext = if c.alive then decide (n = 2 ∨ n = 3) else decide (n = 3)) ∧
      (∀ order : List (Nat × Nat), order.Nodup →
        (∀ i j, (i, j) ∈ order ↔ i < row ∧ j < columns) →
        visit order edgeGrid = some cells') :=
  first_pass_synchronous row columns edgeGrid edgeGrid_wellFormed columns_ge_two
    edgeGrid_settled

/-- C20: after an update pass that returns, every cell's `alive` is the `aliveNext`
the cell had before the pass, and `draw` renders exactly the cells whose
`aliveNext` was set before the pass; on a well-formed grid with at least 2 columns
the pass returns. -/
theorem updatePass_alive_lags (cells : Grid) :
    (∀ cells' : Grid, updatePass cells = some cells' →
      (∀ p q c, load cells p q = some c →
        ∃ c', load cells' p q = some c' ∧ c'.alive = c.aliveNext) ∧
      draw cells' = (cells.flatten.filter fun c => c.aliveNext).map fun c => c.drawable) ∧
    (∀ R C, WellFormed R C cells → 2 ≤ C → ∃ cells', updatePass cells = some cells') := by
  constructor
  · intro cells' h
    have ha : ∀ p q c, load cells p q = some c →
        ∃ c', load cells' p q = some c' ∧ c'.alive = c.aliveNext :=
      fun p q c hc => updatePass_commits cells cells' p q c h hc
    refine ⟨ha, ?_⟩
    rw [draw_eq, committed_eq cells cells' (updatePass_frameOf cells cells' h) ha,
      ← List.map_flatten, List.filter_map, List.map_map]
    rfl
  · intro R C hw hC
    exact ⟨_, (updatePass_wellFormed R C cells hw hC).1⟩
end Life
